import Mathlib

/-!
XBox: the MIPS-to-NN reduction of `src/xbox.cc`

A shallow embedding of `XBox::bulkload` and `XBox::kmip`.

Conventions of the embedding.

* Arithmetic is exact: a finite `float` is an element of a linearly ordered
  field `α` (the theorems take `α = ℝ` with `Real.sqrt`).  A `float` that is
  not finite (NaN, `+inf`, `-inf`) is the value `none` of `F α = Option α`.
  In exact arithmetic the only operations of the source that leave the finite
  values from finite arguments are `sqrt` of a negative number and division
  by zero.
* Overflow is outside exact arithmetic.  Where it decides a property, lines
  52-57 and 69 are also given in float arithmetic with overflow (`Fl`,
  `norm_loop_fl`, `xbox_extra_fl`): a result beyond `FLT_MAX` is an infinity.
* An input pointer (`data_`, `query`) is a total function from the index to
  the value read there; `data_` is indexed by `Int` because `kmip` indexes it
  with an `int` that comes from the NN index.  `kmip` follows a run in which
  every read of `data_` returns a value.  `kmip_ub` takes the bounds of
  `data_` into account: a read outside the `n_pts_` rows has no defined
  result.  An id inside the rows is below `n_pts_`, an `int`, so `id + 1`
  does not overflow.
* A buffer allocated by the code (`new float[dim_ + 1]`, `vector<float>`) is a
  list of the allocated length; a write is `List.set`.
* The counts `n_pts_` and `dim_` are taken non-negative (`Nat`); `top_k` is a
  `Nat` in `kmip` and the `int` of the source in `kmip_ub`.
* `QALSH`, `MinK_List`, `MaxK_List`, `calc_inner_product`, `MINREAL`,
  `MAXREAL` and `FLT_MAX` are declared outside `src/`.
-/

namespace XBox

/-- A `float`: `some x` is the finite value `x`, `none` is a value that is not
finite (NaN or an infinity). -/
abbrev F (α : Type) := Option α

section Defs

variable {α : Type} [LinearOrderedField α]

/-- The loop `for (int i = 0; i < n; ++i) s = body(i, s)` started in state `s`. -/
def forLoop {σ : Type} : Nat → (Nat → σ → σ) → σ → σ
  | 0, _, s => s
  | k + 1, body, s => body k (forLoop k body s)

/-- The call `sqrt(x)` on a finite `x`: NaN for a negative argument. -/
def fsqrt (sqrt : α → α) (x : α) : F α :=
  if x < 0 then none else some (sqrt x)

/-- The quotient `a / b` of two floats: a finite value divided by zero is an
infinity or NaN, and a NaN operand gives NaN.  (The divisor of the source,
`norm_q`, is never an infinity.) -/
def fdiv : F α → F α → F α
  | some x, some y => if y = 0 then none else some (x / y)
  | _, _ => none

/-- The product `a * b` of two floats; a product with an operand that is not
finite is not finite (`inf * 0` is NaN). -/
def fmul : F α → F α → F α
  | some x, some y => some (x * y)
  | _, _ => none

/-- The sum `a + b` of two floats. -/
def fadd : F α → F α → F α
  | some x, some y => some (x + y)
  | _, _ => none

/-- The difference `a - b` of two floats. -/
def fsub : F α → F α → F α
  | some x, some y => some (x - y)
  | _, _ => none

/-- Modelled from the spec: `calc_inner_product(dim, p1, p2)` is declared in
headers.h and defined outside `src/`; the spec calls it the inner product
(`self inner product` for the squared norm): the sum of `p1[i] * p2[i]` over
the `dim` coordinates. -/
def calc_inner_product (dim : Nat) (p1 p2 : Nat → α) : α :=
  forLoop dim (fun i ret => ret + p1 i * p2 i) 0

/-- Modelled from the spec: the external NN index `QALSH`, whose class is not
under `src/`.  The spec says it is constructed with
`(count, dimension, approximationRatio, augmentedDataset)`; the object is the
record of these four arguments. -/
structure QALSH (α : Type) where
  /-- the count given to the constructor -/
  n_pts_ : Nat
  /-- the dimension given to the constructor -/
  dim_ : Nat
  /-- the approximation ratio given to the constructor -/
  appr_ratio_ : α
  /-- the data objects given to the constructor -/
  data_ : List (List (F α))

/-- Modelled from the spec: the candidate container `MinK_List` filled by
`QALSH::knn`, whose class is not under `src/`: an ordered sequence of
candidate ids.  `num_` is the number of candidates the index returned and
`ith_id i` is what the accessor `ith_id(i)` returns, for every `i` (also at
and beyond `num_`, where its value is whatever the container gives). -/
structure MinK_List where
  /-- the number of candidates returned -/
  num_ : Nat
  /-- the accessor `ith_id(i)` -/
  ith_id : Nat → Int

/-- The state of an `XBox` object. -/
structure State (α : Type) where
  /-- number of data objects -/
  n_pts_ : Nat
  /-- dimension of data objects -/
  dim_ : Nat
  /-- approximation ratio -/
  nn_ratio_ : α
  /-- original data objects (borrowed from the caller) -/
  data_ : Int → Nat → α
  /-- the maximum norm of the data objects -/
  M_ : F α
  /-- the augmented data objects -/
  xbox_data_ : List (List (F α))
  /-- the NN index over the augmented data objects -/
  lsh_ : QALSH α

/-- First loop of `bulkload` (lines 52-57): the vector `norm_sqr` and the
running maximum `max_norm_sqr`, started at `MINREAL`. -/
def norm_loop (MINREAL : α) (n_pts_ dim_ : Nat) (data_ : Int → Nat → α) :
    List α × α :=
  forLoop n_pts_
    (fun i st =>
      let norm_sqr :=
        st.1.set i (calc_inner_product dim_ (data_ (i : Int)) (data_ (i : Int)))
      let max_norm_sqr :=
        if norm_sqr.getD i 0 > st.2 then norm_sqr.getD i 0 else st.2
      (norm_sqr, max_norm_sqr))
    (List.replicate n_pts_ 0, MINREAL)

/-- The vector `norm_sqr` after the first loop of `bulkload`. -/
def norm_sqr (MINREAL : α) (n_pts_ dim_ : Nat) (data_ : Int → Nat → α) : List α :=
  (norm_loop MINREAL n_pts_ dim_ data_).1

/-- The local `max_norm_sqr` after the first loop of `bulkload`. -/
def max_norm_sqr (MINREAL : α) (n_pts_ dim_ : Nat) (data_ : Int → Nat → α) : α :=
  (norm_loop MINREAL n_pts_ dim_ data_).2

/-- Body of the second loop of `bulkload` (lines 65-69): the augmented vector
`xbox_data_[i]`.  The fresh `new float[dim_ + 1]` holds no finite value yet. -/
def xbox_row (sqrt : α → α) (dim_ : Nat) (data_ : Int → Nat → α)
    (max_norm_sqr : α) (norm_sqr : List α) (i : Nat) : List (F α) :=
  let row := forLoop dim_ (fun j row => row.set j (some (data_ (i : Int) j)))
    (List.replicate (dim_ + 1) none)
  row.set dim_ (fsqrt sqrt (max_norm_sqr - norm_sqr.getD i 0))

/-- `XBox::bulkload` (lines 47-76), on the parameters set by the constructor. -/
def bulkload (sqrt : α → α) (MINREAL : α) (n_pts_ dim_ : Nat) (nn_ratio_ : α)
    (data_ : Int → Nat → α) : State α :=
  let norm_sqr := norm_sqr MINREAL n_pts_ dim_ data_
  let max_norm_sqr := max_norm_sqr MINREAL n_pts_ dim_ data_
  let M_ := fsqrt sqrt max_norm_sqr
  let xbox_data_ :=
    forLoop n_pts_
      (fun i xd => xd.set i (xbox_row sqrt dim_ data_ max_norm_sqr norm_sqr i))
      (List.replicate n_pts_ [])
  { n_pts_ := n_pts_
    dim_ := dim_
    nn_ratio_ := nn_ratio_
    data_ := data_
    M_ := M_
    xbox_data_ := xbox_data_
    lsh_ := QALSH.mk n_pts_ (dim_ + 1) nn_ratio_ xbox_data_ }

/-- The local `norm_q` of `kmip` (line 98). -/
def norm_q (sqrt : α → α) (self : State α) (query : Nat → α) : F α :=
  fsqrt sqrt (calc_inner_product self.dim_ query query)

/-- The local `lambda` of `kmip` (line 99). -/
def lambda (sqrt : α → α) (self : State α) (used_new_transform : Bool)
    (query : Nat → α) : F α :=
  if used_new_transform then fdiv self.M_ (norm_q sqrt self query) else some 1

/-- The buffer `xbox_query` of `kmip` once filled (lines 100-105). -/
def xbox_query (sqrt : α → α) (self : State α) (used_new_transform : Bool)
    (query : Nat → α) : List (F α) :=
  let lambda := lambda sqrt self used_new_transform query
  let xbox_query :=
    forLoop self.dim_ (fun i xq => xq.set i (fmul lambda (some (query i))))
      (List.replicate (self.dim_ + 1) none)
  xbox_query.set self.dim_ (some 0)

/-- `XBox::kmip` (lines 89-126).  `knn` is the external `QALSH::knn`, which
returns the filled candidate container; `insert` is the `insert` of the
caller's output sink, of any type `σ`.  The result is the returned `int` and
the sink after the call. -/
def kmip {σ : Type} (sqrt : α → α) (MAXREAL : α)
    (knn : QALSH α → Nat → α → List (F α) → MinK_List)
    (insert : σ → α → Int → σ)
    (self : State α) (top_k : Nat) (used_new_transform : Bool)
    (query : Nat → α) (list : σ) : Int × σ :=
  let xbox_query := xbox_query sqrt self used_new_transform query
  let nn_list := knn self.lsh_ top_k MAXREAL xbox_query
  let list :=
    forLoop top_k
      (fun i list =>
        let id := nn_list.ith_id i
        let ip := calc_inner_product self.dim_ (self.data_ id) query
        insert list ip (id + 1))
      list
  (0, list)

/-- The squared norm of the stored vector `i`: its inner product with itself. -/
def sq_norm (dim_ : Nat) (data_ : Int → Nat → α) (i : Nat) : α :=
  calc_inner_product dim_ (data_ (i : Int)) (data_ (i : Int))

/-- The running maximum of `f 0, ..., f (k - 1)` started at `m0`, with the
comparison of line 56. -/
def run_max (m0 : α) (f : Nat → α) (k : Nat) : α :=
  forLoop k (fun i m => if f i > m then f i else m) m0

/-- The value `m` is the maximum squared norm of the dataset: it is the squared
norm of some stored vector and no stored vector has a larger one. -/
def IsMaxSqNorm (n_pts_ dim_ : Nat) (data_ : Int → Nat → α) (m : α) : Prop :=
  (∃ i, i < n_pts_ ∧ m = sq_norm dim_ data_ i) ∧
    ∀ i, i < n_pts_ → sq_norm dim_ data_ i ≤ m

/-- Squared Euclidean norm of a float vector over its first `dim` coordinates
(a coordinate that is absent counts as not finite). -/
def fnorm_sqr (dim : Nat) (p : List (F α)) : F α :=
  forLoop dim (fun j acc => fadd acc (fmul (p.getD j none) (p.getD j none))) (some 0)

/-- Squared Euclidean distance of two float vectors over their first `dim`
coordinates (a coordinate that is absent counts as not finite). -/
def sq_dist (dim : Nat) (p q : List (F α)) : F α :=
  forLoop dim
    (fun j acc =>
      fadd acc (fmul (fsub (p.getD j none) (q.getD j none))
        (fsub (p.getD j none) (q.getD j none))))
    (some 0)

/-- The candidate `id` is an exact Euclidean nearest neighbour of the query `q`
among the data objects the NN index `lsh` was built over: it is a position of
the index, and no data object of the index is closer to `q`. -/
def IsExactNN (lsh : QALSH α) (q : List (F α)) (id : Int) : Prop :=
  0 ≤ id ∧ id < (lsh.n_pts_ : Int) ∧
    ∃ dmin, sq_dist lsh.dim_ (lsh.data_.getD id.toNat []) q = some dmin ∧
      ∀ i, i < lsh.n_pts_ →
        ∃ di, sq_dist lsh.dim_ (lsh.data_.getD i []) q = some di ∧ dmin ≤ di

/-- The pair `kmip` inserts for the candidate at position `i` of the container
`nn_list` (lines 117-120): the inner product of `data_[id]` with the query, and
`id + 1`. -/
def ranked_pair (self : State α) (query : Nat → α) (nn_list : MinK_List)
    (i : Nat) : α × Int :=
  (calc_inner_product self.dim_ (self.data_ (nn_list.ith_id i)) query,
    nn_list.ith_id i + 1)

/-- A sink that records every insertion, in call order. -/
def trace_insert (list : List (α × Int)) (key : α) (id : Int) : List (α × Int) :=
  list ++ [(key, id)]

/-- Modelled from the spec: the bounded top-k output sink `MaxK_List`, whose
class is not under `src/`: a capacity `k_` and the retained `(score, id)`
pairs, read in descending score order. -/
structure MaxK_List (α : Type) where
  /-- the capacity k -/
  k_ : Nat
  /-- the retained pairs, highest score first -/
  list_ : List (α × Int)

/-- Modelled from the spec: a new, empty `MaxK_List(k)`. -/
def MaxK_List.init (k : Nat) : MaxK_List α :=
  { k_ := k, list_ := [] }

/-- Modelled from the spec: the place of a new pair in a descending list, after
every retained pair whose score is at least the new one (`first-seen wins among
equal scores`). -/
def insert_desc (key : α) (id : Int) : List (α × Int) → List (α × Int)
  | [] => [(key, id)]
  | e :: es => if key > e.1 then (key, id) :: e :: es else e :: insert_desc key id es

/-- Modelled from the spec: `MaxK_List::insert(score, id)`, which is not under
`src/`: `The sink must retain only the k highest scores seen so far, ties
broken by stable insertion order`. -/
def MaxK_List.insert (s : MaxK_List α) (key : α) (id : Int) : MaxK_List α :=
  { k_ := s.k_, list_ := (insert_desc key id s.list_).take s.k_ }

/-- A dataset given by its rows, as the memory `data_` points to: row `i`,
coordinate `j`; a position outside the rows reads `0`. -/
def of_rows (rows : List (List α)) : Int → Nat → α :=
  fun i j => if i < 0 then 0 else (rows.getD i.toNat []).getD j 0

/-- A query given by its coordinates. -/
def of_vec (v : List α) : Nat → α :=
  fun j => v.getD j 0

/-- An NN index that returns the same candidate container for every query. -/
def const_knn (nn_list : MinK_List) : QALSH α → Nat → α → List (F α) → MinK_List :=
  fun _ _ _ _ => nn_list

/-- Scenario A of the spec: the dataset `[1,0], [0,1], [3,4]`. -/
def scenario_A : Int → Nat → α :=
  of_rows [[1, 0], [0, 1], [3, 4]]

/-- Scenario A of the spec: the query `[1,1]`. -/
def query_A : Nat → α :=
  of_vec [1, 1]

/-- Euclidean norm of a float vector over its first `dim` coordinates: the
square root of `fnorm_sqr`. -/
def fnorm (sqrt : α → α) (dim : Nat) (p : List (F α)) : F α :=
  match fnorm_sqr dim p with
  | some x => fsqrt sqrt x
  | none => none

/-- `XBox::kmip` (lines 89-126) with the object state passed explicitly: the
returned `int`, the sink after the call and the members of the object after
the call.  The body assigns to its locals and calls `list->insert`; it
assigns to no member. -/
def kmip_st {σ : Type} (sqrt : α → α) (MAXREAL : α)
    (knn : QALSH α → Nat → α → List (F α) → MinK_List)
    (insert : σ → α → Int → σ)
    (self : State α) (top_k : Nat) (used_new_transform : Bool)
    (query : Nat → α) (list : σ) : Int × σ × State α :=
  let norm_q := fsqrt sqrt (calc_inner_product self.dim_ query query)
  let lambda := if used_new_transform then fdiv self.M_ norm_q else some 1
  let xbox_query :=
    (forLoop self.dim_ (fun i xq => xq.set i (fmul lambda (some (query i))))
      (List.replicate (self.dim_ + 1) none)).set self.dim_ (some 0)
  let nn_list := knn self.lsh_ top_k MAXREAL xbox_query
  let list :=
    forLoop top_k
      (fun i list =>
        let id := nn_list.ith_id i
        let ip := calc_inner_product self.dim_ (self.data_ id) query
        insert list ip (id + 1))
      list
  (0, list, self)

/-- Scenario B of the spec: three zero vectors of dimension 2. -/
def scenario_B : Int → Nat → α :=
  of_rows [[0, 0], [0, 0], [0, 0]]

/-- The re-ranking loop of `kmip` (lines 116-121) with the bounds of `data_`
taken into account: `data_` points to `n_pts_` rows, so the read `data_[id]`
of line 118 is defined only for `0 <= id < n_pts_`.  The result is `none` as
soon as an iteration reads `data_` outside these rows: the source gives such a
call no defined result. -/
def rerank_ub {σ : Type} (insert : σ → α → Int → σ) (self : State α)
    (query : Nat → α) (nn_list : MinK_List) (top_k : Nat) (list : σ) : Option σ :=
  forLoop top_k
    (fun i st =>
      match st with
      | none => none
      | some list =>
        let id := nn_list.ith_id i
        if 0 ≤ id ∧ id < (self.n_pts_ : Int) then
          let ip := calc_inner_product self.dim_ (self.data_ id) query
          some (insert list ip (id + 1))
        else none)
    (some list)

/-- `XBox::kmip` (lines 89-126) with `top_k` the `int` of the source and the
bounds of `data_` taken into account.  The loop `for (i = 0; i < top_k; ++i)`
runs `top_k.toNat` times.  The result is `none` when the call reads `data_`
outside the dataset, and otherwise the returned `int` and the sink after the
call.  The calls into the NN index and the containers are taken to return. -/
def kmip_ub {σ : Type} (sqrt : α → α) (MAXREAL : α)
    (knn : QALSH α → Int → α → List (F α) → MinK_List)
    (insert : σ → α → Int → σ)
    (self : State α) (top_k : Int) (used_new_transform : Bool)
    (query : Nat → α) (list : σ) : Option (Int × σ) :=
  let xbox_query := xbox_query sqrt self used_new_transform query
  let nn_list := knn self.lsh_ top_k MAXREAL xbox_query
  match rerank_ub insert self query nn_list top_k.toNat list with
  | some list => some (0, list)
  | none => none

/-- An NN index that returns the same candidate container for every query
(`top_k` an `int`). -/
def fixed_knn (nn_list : MinK_List) : QALSH α → Int → α → List (F α) → MinK_List :=
  fun _ _ _ _ => nn_list

/-- An IEEE `float` with its special values.  Rounding of a finite result is
left out; overflow is not: a finite value lies in `[-FLT_MAX, FLT_MAX]`. -/
inductive Fl (α : Type) where
  /-- a finite value -/
  | fin (x : α) : Fl α
  /-- plus infinity -/
  | pinf : Fl α
  /-- minus infinity -/
  | ninf : Fl α
  /-- not a number -/
  | nan : Fl α

/-- The float for an exact result `x`: an infinity when `x` is beyond the
largest finite float. -/
def fl_round (FLT_MAX : α) (x : α) : Fl α :=
  if FLT_MAX < x then Fl.pinf else if x < -FLT_MAX then Fl.ninf else Fl.fin x

/-- IEEE negation. -/
def fl_neg : Fl α → Fl α
  | Fl.fin x => Fl.fin (-x)
  | Fl.pinf => Fl.ninf
  | Fl.ninf => Fl.pinf
  | Fl.nan => Fl.nan

/-- IEEE addition: `inf + (-inf)` is NaN. -/
def fl_add (FLT_MAX : α) : Fl α → Fl α → Fl α
  | Fl.fin x, Fl.fin y => fl_round FLT_MAX (x + y)
  | Fl.nan, _ => Fl.nan
  | _, Fl.nan => Fl.nan
  | Fl.pinf, Fl.ninf => Fl.nan
  | Fl.ninf, Fl.pinf => Fl.nan
  | Fl.pinf, _ => Fl.pinf
  | _, Fl.pinf => Fl.pinf
  | Fl.ninf, _ => Fl.ninf
  | _, Fl.ninf => Fl.ninf

/-- IEEE subtraction: `inf - inf` is NaN. -/
def fl_sub (FLT_MAX : α) (a b : Fl α) : Fl α :=
  fl_add FLT_MAX a (fl_neg b)

/-- The sign rule for an infinity times a finite `y`: `inf * 0` is NaN. -/
def fl_inf_times (positive : Bool) (y : α) : Fl α :=
  if 0 < y then (if positive then Fl.pinf else Fl.ninf)
  else if y < 0 then (if positive then Fl.ninf else Fl.pinf)
  else Fl.nan

/-- IEEE multiplication. -/
def fl_mul (FLT_MAX : α) : Fl α → Fl α → Fl α
  | Fl.fin x, Fl.fin y => fl_round FLT_MAX (x * y)
  | Fl.nan, _ => Fl.nan
  | _, Fl.nan => Fl.nan
  | Fl.pinf, Fl.fin y => fl_inf_times true y
  | Fl.ninf, Fl.fin y => fl_inf_times false y
  | Fl.fin x, Fl.pinf => fl_inf_times true x
  | Fl.fin x, Fl.ninf => fl_inf_times false x
  | Fl.pinf, Fl.pinf => Fl.pinf
  | Fl.ninf, Fl.ninf => Fl.pinf
  | Fl.pinf, Fl.ninf => Fl.ninf
  | Fl.ninf, Fl.pinf => Fl.ninf

/-- IEEE `sqrt`: NaN for a negative argument and for NaN. -/
def fl_sqrt (sqrt : α → α) : Fl α → Fl α
  | Fl.fin x => if x < 0 then Fl.nan else Fl.fin (sqrt x)
  | Fl.pinf => Fl.pinf
  | Fl.ninf => Fl.nan
  | Fl.nan => Fl.nan

/-- IEEE `a > b`: false when an operand is NaN. -/
def fl_gt : Fl α → Fl α → Bool
  | Fl.fin x, Fl.fin y => decide (x > y)
  | Fl.nan, _ => false
  | _, Fl.nan => false
  | Fl.pinf, Fl.pinf => false
  | Fl.pinf, _ => true
  | Fl.ninf, _ => false
  | Fl.fin _, Fl.ninf => true
  | Fl.fin _, Fl.pinf => false

/-- Modelled from the spec: `calc_inner_product(dim, p1, p2)` (not under
`src/`) in float arithmetic with overflow: the sum of the products
`p1[i] * p2[i]`, accumulated in a `float`. -/
def calc_inner_product_fl (FLT_MAX : α) (dim : Nat) (p1 p2 : Nat → α) : Fl α :=
  forLoop dim
    (fun i ret => fl_add FLT_MAX ret (fl_mul FLT_MAX (Fl.fin (p1 i)) (Fl.fin (p2 i))))
    (Fl.fin 0)

/-- First loop of `bulkload` (lines 52-57) in float arithmetic with overflow. -/
def norm_loop_fl (FLT_MAX MINREAL : α) (n_pts_ dim_ : Nat) (data_ : Int → Nat → α) :
    List (Fl α) × Fl α :=
  forLoop n_pts_
    (fun i st =>
      let norm_sqr :=
        st.1.set i (calc_inner_product_fl FLT_MAX dim_ (data_ (i : Int)) (data_ (i : Int)))
      let max_norm_sqr :=
        if fl_gt (norm_sqr.getD i (Fl.fin 0)) st.2 then norm_sqr.getD i (Fl.fin 0)
        else st.2
      (norm_sqr, max_norm_sqr))
    (List.replicate n_pts_ (Fl.fin 0), Fl.fin MINREAL)

/-- The extra coordinate `xbox_data_[i][dim_]` written by line 69, in float
arithmetic with overflow: `sqrt(max_norm_sqr - norm_sqr[i])`, with no other
operation between the subtraction and the square root. -/
def xbox_extra_fl (sqrt : α → α) (FLT_MAX MINREAL : α) (n_pts_ dim_ : Nat)
    (data_ : Int → Nat → α) (i : Nat) : Fl α :=
  fl_sqrt sqrt
    (fl_sub FLT_MAX (norm_loop_fl FLT_MAX MINREAL n_pts_ dim_ data_).2
      ((norm_loop_fl FLT_MAX MINREAL n_pts_ dim_ data_).1.getD i (Fl.fin 0)))

end Defs

/-! ## Lemmas on the loops of the embedding -/

section Lemmas

variable {α : Type} [LinearOrderedField α]

@[simp] theorem forLoop_zero {σ : Type} (body : Nat → σ → σ) (s : σ) :
    forLoop 0 body s = s := rfl

theorem forLoop_succ {σ : Type} (k : Nat) (body : Nat → σ → σ) (s : σ) :
    forLoop (k + 1) body s = body k (forLoop k body s) := rfl

theorem forLoop_set_fill {β : Type} (f : Nat → β) (l : List β) (k : Nat)
    (hk : k ≤ l.length) :
    forLoop k (fun j row => row.set j (f j)) l = (List.range k).map f ++ l.drop k := by
  induction k with
  | zero => simp
  | succ k ih =>
    have hlt : k < l.length := by omega
    rw [forLoop_succ, ih (by omega), List.set_append_right _ _ (by simp),
      List.drop_eq_getElem_cons hlt, List.range_succ, List.map_append]
    simp only [List.length_map, List.length_range, Nat.sub_self, List.set_cons_zero,
      List.map_cons, List.map_nil, List.append_assoc, List.singleton_append]

theorem forLoop_sum_range (f : Nat → α) (k : Nat) :
    forLoop k (fun i ret => ret + f i) 0 = ∑ i in Finset.range k, f i := by
  induction k with
  | zero => simp
  | succ k ih => rw [forLoop_succ, ih, Finset.sum_range_succ]

theorem calc_inner_product_eq_sum (dim : Nat) (p1 p2 : Nat → α) :
    calc_inner_product dim p1 p2 = ∑ i in Finset.range dim, p1 i * p2 i :=
  forLoop_sum_range _ dim

theorem norm_loop_aux (MINREAL : α) (n d : Nat) (data : Int → Nat → α) (k : Nat)
    (hk : k ≤ n) :
    forLoop k
      (fun i (st : List α × α) =>
        let norm_sqr :=
          st.1.set i (calc_inner_product d (data (i : Int)) (data (i : Int)))
        let max_norm_sqr :=
          if norm_sqr.getD i 0 > st.2 then norm_sqr.getD i 0 else st.2
        (norm_sqr, max_norm_sqr))
      (List.replicate n 0, MINREAL)
    = ((List.range k).map (sq_norm d data) ++ List.replicate (n - k) 0,
       run_max MINREAL (sq_norm d data) k) := by
  induction k with
  | zero => simp [run_max]
  | succ k ih =>
    have hlt : k < n := by omega
    have hrep : List.replicate (n - k) (0 : α) = 0 :: List.replicate (n - (k + 1)) 0 := by
      have : n - k = (n - (k + 1)) + 1 := by omega
      rw [this, List.replicate_succ]
    have hlen : k < ((List.range k).map (sq_norm d data)
        ++ List.replicate (n - k) (0 : α)).length := by
      simp only [List.length_append, List.length_map, List.length_range,
        List.length_replicate]
      omega
    rw [forLoop_succ, ih (by omega)]
    simp only [run_max, forLoop_succ]
    have hg : ∀ v : α, (((List.range k).map (sq_norm d data)
        ++ List.replicate (n - k) (0 : α)).set k v).getD k 0 = v := by
      intro v
      rw [List.getD_eq_getElem?_getD, List.getElem?_set_self hlen]
      rfl
    rw [hg, List.set_append_right _ _ (by simp), hrep]
    simp [List.range_succ, sq_norm]

theorem norm_sqr_eq (MINREAL : α) (n d : Nat) (data : Int → Nat → α) :
    norm_sqr MINREAL n d data = (List.range n).map (sq_norm d data) := by
  have h := norm_loop_aux MINREAL n d data n le_rfl
  simp only [norm_sqr, norm_loop, h]
  simp

theorem max_norm_sqr_eq (MINREAL : α) (n d : Nat) (data : Int → Nat → α) :
    max_norm_sqr MINREAL n d data = run_max MINREAL (sq_norm d data) n := by
  have h := norm_loop_aux MINREAL n d data n le_rfl
  simp only [max_norm_sqr, norm_loop, h]

theorem norm_sqr_getD (MINREAL : α) (n d : Nat) (data : Int → Nat → α) (i : Nat)
    (hi : i < n) :
    (norm_sqr MINREAL n d data).getD i 0 = sq_norm d data i := by
  rw [norm_sqr_eq, List.getD_eq_getElem?_getD]
  simp [hi]

theorem run_max_ge_init (m0 : α) (f : Nat → α) (k : Nat) : m0 ≤ run_max m0 f k := by
  induction k with
  | zero => simp [run_max]
  | succ k ih =>
    simp only [run_max, forLoop_succ] at ih ⊢
    split
    · exact le_trans ih (le_of_lt (by assumption))
    · exact ih

theorem run_max_ge (m0 : α) (f : Nat → α) (k i : Nat) (hi : i < k) :
    f i ≤ run_max m0 f k := by
  induction k with
  | zero => omega
  | succ k ih =>
    simp only [run_max, forLoop_succ] at ih ⊢
    rcases Nat.lt_succ_iff_lt_or_eq.mp hi with h | h
    · split
      · exact le_trans (ih h) (le_of_lt (by assumption))
      · exact ih h
    · subst h
      split
      · exact le_rfl
      · exact not_lt.mp (by assumption)

theorem run_max_attained (m0 : α) (f : Nat → α) (k : Nat) :
    run_max m0 f k = m0 ∨ ∃ i, i < k ∧ run_max m0 f k = f i := by
  induction k with
  | zero => left; simp [run_max]
  | succ k ih =>
    simp only [run_max, forLoop_succ] at ih ⊢
    split
    · exact Or.inr ⟨k, by omega, rfl⟩
    · rcases ih with h | ⟨i, hi, h⟩
      · exact Or.inl h
      · exact Or.inr ⟨i, by omega, h⟩

theorem xbox_row_eq (sqrt : α → α) (d : Nat) (data : Int → Nat → α) (m : α)
    (ns : List α) (i : Nat) :
    xbox_row sqrt d data m ns i =
      (List.range d).map (fun j => (some (data (i : Int) j) : F α))
        ++ [fsqrt sqrt (m - ns.getD i 0)] := by
  unfold xbox_row
  simp only
  rw [forLoop_set_fill _ _ _ (by simp), List.set_append_right _ _ (by simp)]
  simp [List.drop_replicate]

theorem bulkload_xbox_data (sqrt : α → α) (MINREAL : α) (n d : Nat) (r : α)
    (data : Int → Nat → α) :
    (bulkload sqrt MINREAL n d r data).xbox_data_ =
      (List.range n).map (fun i => xbox_row sqrt d data
        (max_norm_sqr MINREAL n d data) (norm_sqr MINREAL n d data) i) := by
  unfold bulkload
  simp only
  rw [forLoop_set_fill _ _ _ (by simp)]
  simp

theorem xbox_query_eq (sqrt : α → α) (self : State α) (b : Bool) (query : Nat → α) :
    xbox_query sqrt self b query =
      (List.range self.dim_).map
          (fun j => fmul (lambda sqrt self b query) (some (query j)))
        ++ [(some 0 : F α)] := by
  unfold xbox_query
  simp only
  rw [forLoop_set_fill _ _ _ (by simp), List.set_append_right _ _ (by simp)]
  simp [List.drop_replicate]

theorem getD_fill_lt {β : Type} (f : Nat → β) (d : Nat) (x dflt : β) (j : Nat)
    (hj : j < d) : ((List.range d).map f ++ [x]).getD j dflt = f j := by
  rw [List.getD_eq_getElem?_getD, List.getElem?_append_left (by simpa using hj)]
  simp [hj]

theorem getD_fill_last {β : Type} (f : Nat → β) (d : Nat) (x dflt : β) :
    ((List.range d).map f ++ [x]).getD d dflt = x := by
  rw [List.getD_eq_getElem?_getD, List.getElem?_append_right (by simp)]
  simp

theorem sq_dist_some (dim : Nat) (p q : List (F α)) (a b : Nat → α)
    (hp : ∀ j, j < dim → p.getD j none = some (a j))
    (hq : ∀ j, j < dim → q.getD j none = some (b j)) :
    sq_dist dim p q = some (∑ j in Finset.range dim, (a j - b j) * (a j - b j)) := by
  unfold sq_dist
  induction dim with
  | zero => simp
  | succ k ih =>
    rw [forLoop_succ, ih (fun j hj => hp j (by omega)) (fun j hj => hq j (by omega)),
      hp k (by omega), hq k (by omega), Finset.sum_range_succ]
    rfl

theorem sum_sq_sub (x y : Nat → α) (l : α) (d : Nat) :
    ∑ j in Finset.range d, (x j - l * y j) * (x j - l * y j) =
      calc_inner_product d x x + l * l * calc_inner_product d y y
        - 2 * l * calc_inner_product d x y := by
  simp only [calc_inner_product_eq_sum]
  induction d with
  | zero => simp
  | succ k ih =>
    simp only [Finset.sum_range_succ, ih]
    ring

@[simp] theorem bulkload_dim (sqrt : α → α) (MINREAL : α) (n d : Nat) (r : α)
    (data : Int → Nat → α) : (bulkload sqrt MINREAL n d r data).dim_ = d := rfl

@[simp] theorem bulkload_n_pts (sqrt : α → α) (MINREAL : α) (n d : Nat) (r : α)
    (data : Int → Nat → α) : (bulkload sqrt MINREAL n d r data).n_pts_ = n := rfl

@[simp] theorem bulkload_data (sqrt : α → α) (MINREAL : α) (n d : Nat) (r : α)
    (data : Int → Nat → α) : (bulkload sqrt MINREAL n d r data).data_ = data := rfl

theorem bulkload_M (sqrt : α → α) (MINREAL : α) (n d : Nat) (r : α)
    (data : Int → Nat → α) :
    (bulkload sqrt MINREAL n d r data).M_ = fsqrt sqrt (max_norm_sqr MINREAL n d data) := rfl

theorem bulkload_lsh (sqrt : α → α) (MINREAL : α) (n d : Nat) (r : α)
    (data : Int → Nat → α) :
    (bulkload sqrt MINREAL n d r data).lsh_ =
      QALSH.mk n (d + 1) r (bulkload sqrt MINREAL n d r data).xbox_data_ := rfl

theorem sq_norm_le_max (MINREAL : α) (n d : Nat) (data : Int → Nat → α) (i : Nat)
    (hi : i < n) : sq_norm d data i ≤ max_norm_sqr MINREAL n d data := by
  rw [max_norm_sqr_eq]
  exact run_max_ge MINREAL (sq_norm d data) n i hi

theorem fsqrt_of_nonneg (sqrt : α → α) (x : α) (hx : 0 ≤ x) :
    fsqrt sqrt x = some (sqrt x) := by
  simp [fsqrt, not_lt.mpr hx]

theorem bulkload_row (sqrt : α → α) (MINREAL : α) (n d : Nat) (r : α)
    (data : Int → Nat → α) (i : Nat) (hi : i < n) :
    (bulkload sqrt MINREAL n d r data).xbox_data_.getD i [] =
      (List.range d).map (fun j => (some (data (i : Int) j) : F α))
        ++ [some (sqrt (max_norm_sqr MINREAL n d data - sq_norm d data i))] := by
  rw [bulkload_xbox_data, List.getD_eq_getElem?_getD]
  simp only [List.getElem?_map, List.getElem?_range hi, Option.map_some', Option.getD_some]
  rw [xbox_row_eq, norm_sqr_getD _ _ _ _ _ hi,
    fsqrt_of_nonneg _ _ (sub_nonneg.mpr (sq_norm_le_max MINREAL n d data i hi))]

theorem aug_sq_dist (MINREAL : ℝ) (n d : Nat) (r : ℝ) (data : Int → Nat → ℝ)
    (b : Bool) (query : Nat → ℝ) (l : ℝ) (i : Nat) (hi : i < n)
    (hl : lambda Real.sqrt (bulkload Real.sqrt MINREAL n d r data) b query = some l) :
    sq_dist (d + 1) ((bulkload Real.sqrt MINREAL n d r data).xbox_data_.getD i [])
        (xbox_query Real.sqrt (bulkload Real.sqrt MINREAL n d r data) b query) =
      some (max_norm_sqr MINREAL n d data + l * l * calc_inner_product d query query
        - 2 * l * calc_inner_product d (data (i : Int)) query) := by
  have hm := sq_norm_le_max MINREAL n d data i hi
  rw [bulkload_row _ _ _ _ _ _ _ hi, xbox_query_eq, hl, bulkload_dim]
  rw [sq_dist_some (d + 1) _ _
    (fun j => if j < d then data (i : Int) j
      else Real.sqrt (max_norm_sqr MINREAL n d data - sq_norm d data i))
    (fun j => if j < d then l * query j else 0)]
  · congr 1
    rw [Finset.sum_range_succ]
    have hs : ∑ j in Finset.range d,
        ((if j < d then data (i : Int) j
            else Real.sqrt (max_norm_sqr MINREAL n d data - sq_norm d data i))
          - (if j < d then l * query j else 0))
        * ((if j < d then data (i : Int) j
            else Real.sqrt (max_norm_sqr MINREAL n d data - sq_norm d data i))
          - (if j < d then l * query j else 0))
        = ∑ j in Finset.range d,
            (data (i : Int) j - l * query j) * (data (i : Int) j - l * query j) := by
      apply Finset.sum_congr rfl
      intro j hj
      simp [Finset.mem_range.mp hj]
    rw [hs, sum_sq_sub]
    simp only [lt_irrefl, if_false, sub_zero]
    rw [Real.mul_self_sqrt (sub_nonneg.mpr hm)]
    simp only [sq_norm]
    ring
  · intro j hj
    by_cases h : j < d
    · rw [getD_fill_lt _ _ _ _ _ h]; simp [h]
    · have : j = d := by omega
      subst this
      rw [getD_fill_last]; simp
  · intro j hj
    by_cases h : j < d
    · rw [getD_fill_lt _ _ _ _ _ h]; simp [h, fmul]
    · have : j = d := by omega
      subst this
      rw [getD_fill_last]; simp

theorem kmip_fst {σ : Type} (sqrt : α → α) (MAXREAL : α)
    (knn : QALSH α → Nat → α → List (F α) → MinK_List) (ins : σ → α → Int → σ)
    (self : State α) (top_k : Nat) (b : Bool) (query : Nat → α) (list : σ) :
    (kmip sqrt MAXREAL knn ins self top_k b query list).1 = 0 := rfl

theorem kmip_snd {σ : Type} (sqrt : α → α) (MAXREAL : α)
    (knn : QALSH α → Nat → α → List (F α) → MinK_List) (ins : σ → α → Int → σ)
    (self : State α) (top_k : Nat) (b : Bool) (query : Nat → α) (list : σ) :
    (kmip sqrt MAXREAL knn ins self top_k b query list).2 =
      forLoop top_k
        (fun i s =>
          ins s
            (ranked_pair self query
              (knn self.lsh_ top_k MAXREAL (xbox_query sqrt self b query)) i).1
            (ranked_pair self query
              (knn self.lsh_ top_k MAXREAL (xbox_query sqrt self b query)) i).2)
        list := rfl

theorem forLoop_eq_foldl {σ β : Type} (g : Nat → β) (ins : σ → β → σ) (s : σ) (k : Nat) :
    forLoop k (fun i s => ins s (g i)) s = ((List.range k).map g).foldl ins s := by
  induction k with
  | zero => simp
  | succ k ih => rw [forLoop_succ, ih, List.range_succ, List.map_append, List.foldl_append]; rfl

theorem forLoop_trace {β : Type} (g : Nat → β × Int) (k : Nat) :
    forLoop k (fun i s => trace_insert s (g i).1 (g i).2) [] = (List.range k).map g := by
  induction k with
  | zero => simp
  | succ k ih => rw [forLoop_succ, ih, List.range_succ, List.map_append]; rfl

theorem insert_desc_perm (key : α) (id : Int) (l : List (α × Int)) :
    (insert_desc key id l).Perm ((key, id) :: l) := by
  induction l with
  | nil => simp [insert_desc]
  | cons e es ih =>
    simp only [insert_desc]
    split
    · exact List.Perm.refl _
    · exact (List.Perm.cons e ih).trans (List.Perm.swap _ _ _)

theorem insert_desc_sorted (key : α) (id : Int) (l : List (α × Int))
    (h : l.Pairwise (fun a b => b.1 ≤ a.1)) :
    (insert_desc key id l).Pairwise (fun a b => b.1 ≤ a.1) := by
  induction l with
  | nil => simp [insert_desc]
  | cons e es ih =>
    rw [List.pairwise_cons] at h
    simp only [insert_desc]
    split
    · rename_i hgt
      rw [List.pairwise_cons]
      refine ⟨?_, List.pairwise_cons.mpr h⟩
      intro x hx
      rcases List.mem_cons.mp hx with rfl | hx
      · exact le_of_lt hgt
      · exact le_trans (h.1 x hx) (le_of_lt hgt)
    · rename_i hgt
      rw [List.pairwise_cons]
      refine ⟨?_, ih h.2⟩
      intro x hx
      rcases List.mem_cons.mp ((insert_desc_perm key id es).mem_iff.mp hx) with rfl | hx
      · exact not_lt.mp hgt
      · exact h.1 x hx

theorem maxk_fill (g : Nat → α × Int) (k j : Nat) (hj : j ≤ k) :
    (forLoop j (fun i s => MaxK_List.insert s (g i).1 (g i).2) (MaxK_List.init k)).k_ = k ∧
    (forLoop j (fun i s => MaxK_List.insert s (g i).1 (g i).2) (MaxK_List.init k)).list_.Pairwise
      (fun a b => b.1 ≤ a.1) ∧
    (forLoop j (fun i s => MaxK_List.insert s (g i).1 (g i).2) (MaxK_List.init k)).list_.Perm
      ((List.range j).map g) := by
  induction j with
  | zero => simp [MaxK_List.init]
  | succ j ih =>
    obtain ⟨hk, hs, hp⟩ := ih (by omega)
    rw [forLoop_succ]
    generalize forLoop j (fun i s => MaxK_List.insert s (g i).1 (g i).2)
      (MaxK_List.init k) = S at hk hs hp ⊢
    have hlen : (insert_desc (g j).1 (g j).2 S.list_).length ≤ S.k_ := by
      rw [(insert_desc_perm _ _ _).length_eq, List.length_cons, hp.length_eq, hk]
      simp
      omega
    simp only [MaxK_List.insert, List.take_of_length_le hlen]
    refine ⟨hk, insert_desc_sorted _ _ _ hs, ?_⟩
    rw [List.range_succ, List.map_append]
    refine (insert_desc_perm _ _ _).trans ?_
    refine List.Perm.trans (List.Perm.cons _ hp) ?_
    simpa using (List.perm_append_singleton (g j) ((List.range j).map g)).symm

theorem bulkload_xbox_data_get (sqrt : α → α) (MINREAL : α) (n d : Nat) (r : α)
    (data : Int → Nat → α) (i : Nat) (hi : i < n) :
    (bulkload sqrt MINREAL n d r data).xbox_data_[i]? =
      some ((List.range d).map (fun j => (some (data (i : Int) j) : F α))
        ++ [some (sqrt (max_norm_sqr MINREAL n d data
              - (norm_sqr MINREAL n d data).getD i 0))]) := by
  rw [bulkload_xbox_data]
  simp only [List.getElem?_map, List.getElem?_range hi, Option.map_some']
  rw [xbox_row_eq, norm_sqr_getD _ _ _ _ _ hi,
    fsqrt_of_nonneg _ _ (sub_nonneg.mpr (sq_norm_le_max MINREAL n d data i hi))]

theorem forLoop_fadd_some (f : Nat → α) (k : Nat) :
    forLoop k (fun j acc => fadd acc (some (f j))) (some 0) =
      some (∑ j in Finset.range k, f j) := by
  induction k with
  | zero => simp
  | succ k ih => rw [forLoop_succ, ih, Finset.sum_range_succ]; rfl

theorem fnorm_sqr_some (dim : Nat) (p : List (F α)) (a : Nat → α)
    (hp : ∀ j, j < dim → p.getD j none = some (a j)) :
    fnorm_sqr dim p = some (calc_inner_product dim a a) := by
  unfold fnorm_sqr
  rw [calc_inner_product_eq_sum]
  induction dim with
  | zero => simp
  | succ k ih =>
    rw [forLoop_succ, ih (fun j hj => hp j (by omega)), hp k (by omega),
      Finset.sum_range_succ]
    rfl

theorem sq_norm_nonneg (d : Nat) (data : Int → Nat → α) (i : Nat) :
    0 ≤ sq_norm d data i := by
  unfold sq_norm
  rw [calc_inner_product_eq_sum]
  exact Finset.sum_nonneg (fun j _ => mul_self_nonneg _)

theorem max_norm_sqr_isMax (MINREAL : α) (n d : Nat) (data : Int → Nat → α)
    (hM : MINREAL < 0) (hn : 0 < n) :
    IsMaxSqNorm n d data (max_norm_sqr MINREAL n d data) := by
  refine ⟨?_, fun i hi => sq_norm_le_max MINREAL n d data i hi⟩
  rw [max_norm_sqr_eq]
  rcases run_max_attained MINREAL (sq_norm d data) n with h | h
  · exfalso
    have h1 := run_max_ge MINREAL (sq_norm d data) n 0 hn
    have h2 := sq_norm_nonneg d data 0
    rw [h] at h1
    exact absurd (lt_of_le_of_lt (le_trans h2 h1) hM) (lt_irrefl _)
  · exact h

theorem ip_scenario_A (i : Nat) (hi : i < 3) :
    calc_inner_product 2 (scenario_A (i : Int)) (query_A : Nat → ℝ) ≤
      calc_inner_product 2 (scenario_A ((2 : Nat) : Int)) query_A := by
  interval_cases i <;>
    simp [calc_inner_product, forLoop, scenario_A, query_A, of_rows, of_vec] <;>
    norm_num

theorem ip_scenario_A_2 :
    calc_inner_product 2 (scenario_A (2 : Int)) (query_A : Nat → ℝ) = 7 := by
  simp [calc_inner_product, forLoop, scenario_A, query_A, of_rows, of_vec]
  norm_num

theorem isExactNN_scenario_A :
    IsExactNN (bulkload Real.sqrt (-1) 3 2 2 scenario_A).lsh_
      (xbox_query Real.sqrt (bulkload Real.sqrt (-1) 3 2 2 scenario_A) false query_A)
      2 := by
  have hl : lambda Real.sqrt (bulkload Real.sqrt (-1) 3 2 2 scenario_A) false query_A
      = some (1 : ℝ) := by simp [lambda]
  have h2 := aug_sq_dist (-1) 3 2 2 scenario_A false query_A 1 2 (by decide) hl
  unfold IsExactNN
  simp only [bulkload_lsh]
  refine ⟨by norm_num, by norm_num, _, h2, ?_⟩
  intro i hi
  refine ⟨_, aug_sq_dist (-1) 3 2 2 scenario_A false query_A 1 i hi hl, ?_⟩
  have := ip_scenario_A i hi
  linarith

theorem ip_query_A : calc_inner_product 2 (query_A : Nat → ℝ) query_A = 2 := by
  simp [calc_inner_product, forLoop, query_A, of_vec]
  norm_num

theorem zero_norm_query_aux (self : State ℝ) (query : Nat → ℝ)
    (hq : Real.sqrt (calc_inner_product self.dim_ query query) = 0) :
    (lambda Real.sqrt self true query = none ∧
      xbox_query Real.sqrt self true query =
        (List.range self.dim_).map (fun _ => (none : F ℝ)) ++ [some 0]) ∧
    (lambda Real.sqrt self false query = some 1 ∧
      xbox_query Real.sqrt self false query =
        (List.range self.dim_).map (fun j => (some (query j) : F ℝ)) ++ [some 0]) := by
  have hnn : (0 : ℝ) ≤ calc_inner_product self.dim_ query query := by
    rw [calc_inner_product_eq_sum]
    exact Finset.sum_nonneg (fun j _ => mul_self_nonneg _)
  have h1 : lambda Real.sqrt self true query = none := by
    unfold lambda norm_q
    rw [fsqrt_of_nonneg _ _ hnn, hq]
    cases self.M_ <;> simp [fdiv]
  have h2 : lambda Real.sqrt self false query = some 1 := by simp [lambda]
  refine ⟨⟨h1, ?_⟩, h2, ?_⟩
  · rw [xbox_query_eq, h1]
    rfl
  · rw [xbox_query_eq, h2]
    simp [fmul]

theorem kmip_trace (sqrt : α → α) (MAXREAL : α)
    (knn : QALSH α → Nat → α → List (F α) → MinK_List)
    (self : State α) (top_k : Nat) (b : Bool) (query : Nat → α) :
    (kmip sqrt MAXREAL knn trace_insert self top_k b query []).2 =
      (List.range top_k).map (ranked_pair self query
        (knn self.lsh_ top_k MAXREAL (xbox_query sqrt self b query))) := by
  rw [kmip_snd, forLoop_trace]

theorem bulkload_empty (sqrt : α → α) (MINREAL : α) (d : Nat) (r : α)
    (data : Int → Nat → α) :
    (bulkload sqrt MINREAL 0 d r data).xbox_data_ = [] := by
  rw [bulkload_xbox_data]
  rfl

theorem calc_inner_product_zero_left (d : Nat) (p q : Nat → α)
    (hp : ∀ j : Nat, j < d → p j = 0) : calc_inner_product d p q = 0 := by
  rw [calc_inner_product_eq_sum]
  apply Finset.sum_eq_zero
  intro j hj
  rw [hp j (Finset.mem_range.mp hj), zero_mul]

theorem max_norm_sqr_all_zero (MINREAL : α) (n d : Nat) (data : Int → Nat → α)
    (hM : MINREAL < 0) (hn : 0 < n)
    (hz : ∀ i : Nat, i < n → ∀ j : Nat, j < d → data (i : Int) j = 0) :
    max_norm_sqr MINREAL n d data = 0 := by
  obtain ⟨⟨i, hi, h⟩, _⟩ := max_norm_sqr_isMax MINREAL n d data hM hn
  rw [h]
  exact calc_inner_product_zero_left d _ _ (hz i hi)

theorem forLoop_congr {σ : Type} (k : Nat) (f g : Nat → σ → σ) (s : σ)
    (h : ∀ i : Nat, i < k → f i = g i) : forLoop k f s = forLoop k g s := by
  induction k with
  | zero => rfl
  | succ k ih =>
    rw [forLoop_succ, forLoop_succ, ih (fun i hi => h i (by omega)), h k (by omega)]

theorem scenario_B_zero (i : Nat) (hi : i < 3) (j : Nat) (hj : j < 2) :
    (scenario_B (i : Int) j : ℝ) = 0 := by
  interval_cases i <;> interval_cases j <;> simp [scenario_B, of_rows]

theorem fnorm_sqr_none (dim : Nat) (p : List (F α)) (j : Nat) (hj : j < dim)
    (hp : p.getD j none = none) : fnorm_sqr dim p = none := by
  unfold fnorm_sqr
  induction dim with
  | zero => omega
  | succ k ih =>
    rw [forLoop_succ]
    rcases Nat.lt_succ_iff_lt_or_eq.mp hj with h | h
    · rw [ih h]
      rfl
    · subst h
      rw [hp]
      cases forLoop j (fun j acc => fadd acc (fmul (p.getD j none) (p.getD j none)))
        (some (0 : α)) <;> rfl

theorem calc_inner_product_scaled (d : Nat) (q : Nat → α) (l : α) :
    calc_inner_product (d + 1) (fun j => if j < d then l * q j else 0)
        (fun j => if j < d then l * q j else 0) =
      l * l * calc_inner_product d q q := by
  simp only [calc_inner_product_eq_sum]
  rw [Finset.sum_range_succ, Finset.mul_sum]
  simp only [lt_irrefl, if_false, mul_zero, add_zero]
  apply Finset.sum_congr rfl
  intro j hj
  simp only [Finset.mem_range.mp hj, if_true]
  ring

theorem xbox_query_fnorm_sqr (sqrt : α → α) (self : State α) (b : Bool)
    (query : Nat → α) (l : α) (hl : lambda sqrt self b query = some l) :
    fnorm_sqr (self.dim_ + 1) (xbox_query sqrt self b query) =
      some (l * l * calc_inner_product self.dim_ query query) := by
  rw [xbox_query_eq, hl, ← calc_inner_product_scaled]
  apply fnorm_sqr_some
  intro j hj
  by_cases h : j < self.dim_
  · rw [getD_fill_lt _ _ _ _ _ h]; simp [h, fmul]
  · have : j = self.dim_ := by omega
    subst this
    rw [getD_fill_last]; simp

theorem calc_inner_product_self_nonneg (d : Nat) (q : Nat → α) :
    0 ≤ calc_inner_product d q q := by
  rw [calc_inner_product_eq_sum]
  exact Finset.sum_nonneg (fun j _ => mul_self_nonneg _)

theorem bulkload_row_fnorm_sqr (MINREAL : ℝ) (n d : Nat) (r : ℝ)
    (data : Int → Nat → ℝ) (i : Nat) (hi : i < n) :
    fnorm_sqr (d + 1) ((bulkload Real.sqrt MINREAL n d r data).xbox_data_.getD i [])
      = some (max_norm_sqr MINREAL n d data) := by
  have hm := sq_norm_le_max MINREAL n d data i hi
  rw [bulkload_row _ _ _ _ _ _ _ hi]
  rw [fnorm_sqr_some (d + 1) _
    (fun j => if j < d then data (i : Int) j
      else Real.sqrt (max_norm_sqr MINREAL n d data - sq_norm d data i))]
  · congr 1
    rw [calc_inner_product_eq_sum, Finset.sum_range_succ]
    have hs : ∑ j in Finset.range d,
        (if j < d then data (i : Int) j
            else Real.sqrt (max_norm_sqr MINREAL n d data - sq_norm d data i))
        * (if j < d then data (i : Int) j
            else Real.sqrt (max_norm_sqr MINREAL n d data - sq_norm d data i))
        = sq_norm d data i := by
      rw [sq_norm, calc_inner_product_eq_sum]
      apply Finset.sum_congr rfl
      intro j hj
      simp [Finset.mem_range.mp hj]
    rw [hs]
    simp only [lt_irrefl, if_false]
    rw [Real.mul_self_sqrt (sub_nonneg.mpr hm)]
    ring
  · intro j hj
    by_cases h : j < d
    · rw [getD_fill_lt _ _ _ _ _ h]; simp [h]
    · have : j = d := by omega
      subst this
      rw [getD_fill_last]; simp

theorem fnorm_of_some (sqrt : α → α) (dim : Nat) (p : List (F α)) (x : α)
    (h : fnorm_sqr dim p = some x) : fnorm sqrt dim p = fsqrt sqrt x := by
  unfold fnorm
  rw [h]

theorem fnorm_of_none (sqrt : α → α) (dim : Nat) (p : List (F α))
    (h : fnorm_sqr dim p = none) : fnorm sqrt dim p = none := by
  unfold fnorm
  rw [h]

theorem xbox_query_norm_aux (MINREAL : ℝ) (n d : Nat) (r : ℝ) (data : Int → Nat → ℝ)
    (query : Nat → ℝ) (hq : 0 < Real.sqrt (calc_inner_product d query query)) :
    fnorm Real.sqrt (d + 1)
        (xbox_query Real.sqrt (bulkload Real.sqrt MINREAL n d r data) true query)
      = (bulkload Real.sqrt MINREAL n d r data).M_ ∧
    fnorm Real.sqrt (d + 1)
        (xbox_query Real.sqrt (bulkload Real.sqrt MINREAL n d r data) false query)
      = some (Real.sqrt (calc_inner_product d query query)) := by
  have hnn : (0 : ℝ) ≤ calc_inner_product d query query :=
    calc_inner_product_self_nonneg d query
  have hpos : 0 < calc_inner_product d query query := Real.sqrt_pos.mp hq
  constructor
  · by_cases hneg : max_norm_sqr MINREAL n d data < 0
    · have hM : (bulkload Real.sqrt MINREAL n d r data).M_ = none := by
        rw [bulkload_M]; simp [fsqrt, hneg]
      have hlam : lambda Real.sqrt (bulkload Real.sqrt MINREAL n d r data) true query
          = none := by
        simp [lambda, hM, fdiv]
      have hd : 0 < d := by
        rcases Nat.eq_zero_or_pos d with h | h
        · subst h
          simp [calc_inner_product] at hpos
        · exact h
      have h0 : (xbox_query Real.sqrt (bulkload Real.sqrt MINREAL n d r data) true
          query).getD 0 none = none := by
        rw [xbox_query_eq, bulkload_dim, getD_fill_lt _ _ _ _ _ hd, hlam]
        rfl
      rw [hM]
      exact fnorm_of_none _ _ _ (fnorm_sqr_none (d + 1) _ 0 (by omega) h0)
    · have hge : 0 ≤ max_norm_sqr MINREAL n d data := not_lt.mp hneg
      have hM : (bulkload Real.sqrt MINREAL n d r data).M_
          = some (Real.sqrt (max_norm_sqr MINREAL n d data)) := by
        rw [bulkload_M, fsqrt_of_nonneg _ _ hge]
      have hlam : lambda Real.sqrt (bulkload Real.sqrt MINREAL n d r data) true query
          = some (Real.sqrt (max_norm_sqr MINREAL n d data)
              / Real.sqrt (calc_inner_product d query query)) := by
        simp [lambda, norm_q, hM, fsqrt_of_nonneg _ _ hnn, fdiv, ne_of_gt hq]
      have h := xbox_query_fnorm_sqr Real.sqrt (bulkload Real.sqrt MINREAL n d r data)
        true query _ hlam
      rw [bulkload_dim] at h
      have hval : Real.sqrt (max_norm_sqr MINREAL n d data)
            / Real.sqrt (calc_inner_product d query query)
          * (Real.sqrt (max_norm_sqr MINREAL n d data)
            / Real.sqrt (calc_inner_product d query query))
          * calc_inner_product d query query
          = Real.sqrt (max_norm_sqr MINREAL n d data)
            * Real.sqrt (max_norm_sqr MINREAL n d data) := by
        have hqq := Real.mul_self_sqrt hnn
        have hb : Real.sqrt (calc_inner_product d query query) ≠ 0 := ne_of_gt hq
        rw [div_mul_div_comm, div_mul_eq_mul_div, div_eq_iff (mul_ne_zero hb hb), hqq]
      rw [hval] at h
      rw [fnorm_of_some _ _ _ _ h, hM,
        fsqrt_of_nonneg Real.sqrt _ (mul_self_nonneg (Real.sqrt (max_norm_sqr MINREAL n d data))),
        Real.sqrt_mul_self (Real.sqrt_nonneg _)]
  · have hlam : lambda Real.sqrt (bulkload Real.sqrt MINREAL n d r data) false query
        = some 1 := by simp [lambda]
    have h := xbox_query_fnorm_sqr Real.sqrt (bulkload Real.sqrt MINREAL n d r data)
      false query _ hlam
    rw [bulkload_dim] at h
    rw [fnorm_of_some _ _ _ _ h]
    simp only [one_mul]
    exact fsqrt_of_nonneg _ _ hnn

theorem rerank_ub_valid {σ : Type} (ins : σ → α → Int → σ) (self : State α)
    (query : Nat → α) (nn : MinK_List) (k : Nat) (list : σ)
    (h : ∀ i : Nat, i < k → 0 ≤ nn.ith_id i ∧ nn.ith_id i < (self.n_pts_ : Int)) :
    rerank_ub ins self query nn k list =
      some (forLoop k
        (fun i s => ins s (ranked_pair self query nn i).1 (ranked_pair self query nn i).2)
        list) := by
  induction k with
  | zero => rfl
  | succ k ih =>
    have ih2 := ih (fun i hi => h i (by omega))
    unfold rerank_ub at ih2 ⊢
    rw [forLoop_succ, ih2, forLoop_succ]
    simp only [h k (by omega), and_self, if_true]
    rfl

theorem rerank_ub_invalid {σ : Type} (ins : σ → α → Int → σ) (self : State α)
    (query : Nat → α) (nn : MinK_List) (k : Nat) (list : σ) (i : Nat) (hi : i < k)
    (hbad : ¬ (0 ≤ nn.ith_id i ∧ nn.ith_id i < (self.n_pts_ : Int))) :
    rerank_ub ins self query nn k list = none := by
  induction k with
  | zero => omega
  | succ k ih =>
    unfold rerank_ub at ih ⊢
    rw [forLoop_succ]
    rcases Nat.lt_succ_iff_lt_or_eq.mp hi with h | h
    · rw [ih h]
    · subst h
      cases forLoop i
        (fun i st =>
          match st with
          | none => none
          | some list =>
            let id := nn.ith_id i
            if 0 ≤ id ∧ id < (self.n_pts_ : Int) then
              let ip := calc_inner_product self.dim_ (self.data_ id) query
              some (ins list ip (id + 1))
            else none)
        (some list) with
      | none => rfl
      | some s => simp only [hbad, if_false]

theorem kmip_ub_valid {σ : Type} (sqrt : α → α) (MAXREAL : α)
    (knn : QALSH α → Int → α → List (F α) → MinK_List) (ins : σ → α → Int → σ)
    (self : State α) (top_k : Int) (b : Bool) (query : Nat → α) (list : σ)
    (h : ∀ i : Nat, i < top_k.toNat →
      0 ≤ (knn self.lsh_ top_k MAXREAL (xbox_query sqrt self b query)).ith_id i ∧
      (knn self.lsh_ top_k MAXREAL (xbox_query sqrt self b query)).ith_id i
        < (self.n_pts_ : Int)) :
    kmip_ub sqrt MAXREAL knn ins self top_k b query list =
      some (0, forLoop top_k.toNat
        (fun i s =>
          ins s
            (ranked_pair self query
              (knn self.lsh_ top_k MAXREAL (xbox_query sqrt self b query)) i).1
            (ranked_pair self query
              (knn self.lsh_ top_k MAXREAL (xbox_query sqrt self b query)) i).2)
        list) := by
  unfold kmip_ub
  simp only
  rw [rerank_ub_valid ins self query _ top_k.toNat list h]

theorem kmip_ub_invalid {σ : Type} (sqrt : α → α) (MAXREAL : α)
    (knn : QALSH α → Int → α → List (F α) → MinK_List) (ins : σ → α → Int → σ)
    (self : State α) (top_k : Int) (b : Bool) (query : Nat → α) (list : σ)
    (i : Nat) (hi : i < top_k.toNat)
    (hbad : ¬ (0 ≤ (knn self.lsh_ top_k MAXREAL (xbox_query sqrt self b query)).ith_id i ∧
      (knn self.lsh_ top_k MAXREAL (xbox_query sqrt self b query)).ith_id i
        < (self.n_pts_ : Int))) :
    kmip_ub sqrt MAXREAL knn ins self top_k b query list = none := by
  unfold kmip_ub
  simp only
  rw [rerank_ub_invalid ins self query _ top_k.toNat list i hi hbad]

theorem kmip_ub_fst {σ : Type} (sqrt : α → α) (MAXREAL : α)
    (knn : QALSH α → Int → α → List (F α) → MinK_List) (ins : σ → α → Int → σ)
    (self : State α) (top_k : Int) (b : Bool) (query : Nat → α) (list : σ)
    (r : Int × σ) (h : kmip_ub sqrt MAXREAL knn ins self top_k b query list = some r) :
    r.1 = 0 := by
  unfold kmip_ub at h
  simp only at h
  cases hr : rerank_ub ins self query
      (knn self.lsh_ top_k MAXREAL (xbox_query sqrt self b query)) top_k.toNat list with
  | none => rw [hr] at h; exact Option.noConfusion h
  | some s =>
    rw [hr] at h
    rw [← Option.some.inj h]

theorem kmip_ub_trace (sqrt : α → α) (MAXREAL : α)
    (knn : QALSH α → Int → α → List (F α) → MinK_List)
    (self : State α) (top_k : Int) (b : Bool) (query : Nat → α)
    (h : ∀ i : Nat, i < top_k.toNat →
      0 ≤ (knn self.lsh_ top_k MAXREAL (xbox_query sqrt self b query)).ith_id i ∧
      (knn self.lsh_ top_k MAXREAL (xbox_query sqrt self b query)).ith_id i
        < (self.n_pts_ : Int)) :
    kmip_ub sqrt MAXREAL knn trace_insert self top_k b query [] =
      some (0, (List.range top_k.toNat).map (ranked_pair self query
        (knn self.lsh_ top_k MAXREAL (xbox_query sqrt self b query)))) := by
  rw [kmip_ub_valid sqrt MAXREAL knn trace_insert self top_k b query [] h, forLoop_trace]

theorem fl_round_fin (FLT_MAX x : α) (h1 : -FLT_MAX ≤ x) (h2 : x ≤ FLT_MAX) :
    fl_round FLT_MAX x = Fl.fin x := by
  simp [fl_round, not_lt.mpr h1, not_lt.mpr h2]

theorem calc_inner_product_fl_self (FLT_MAX : α) (d : Nat) (p : Nat → α)
    (hb : calc_inner_product d p p ≤ FLT_MAX) :
    calc_inner_product_fl FLT_MAX d p p = Fl.fin (calc_inner_product d p p) := by
  rw [calc_inner_product_eq_sum] at hb
  have h0 : (0 : α) ≤ FLT_MAX :=
    le_trans (Finset.sum_nonneg (fun j _ => mul_self_nonneg (p j))) hb
  have key : ∀ k : Nat, k ≤ d →
      forLoop k
        (fun i ret => fl_add FLT_MAX ret (fl_mul FLT_MAX (Fl.fin (p i)) (Fl.fin (p i))))
        (Fl.fin 0)
      = Fl.fin (∑ j in Finset.range k, p j * p j) := by
    intro k
    induction k with
    | zero => intro _; simp
    | succ k ih =>
      intro hk
      have hpart : ∑ j in Finset.range (k + 1), p j * p j ≤ FLT_MAX :=
        le_trans
          (Finset.sum_le_sum_of_subset_of_nonneg
            (Finset.range_mono hk) (fun j _ _ => mul_self_nonneg (p j)))
          hb
      have hsq : p k * p k ≤ FLT_MAX :=
        le_trans
          (Finset.single_le_sum (fun j _ => mul_self_nonneg (p j))
            (Finset.mem_range.mpr (Nat.lt_succ_self k)))
          hpart
      have hpos : (0 : α) ≤ ∑ j in Finset.range (k + 1), p j * p j :=
        Finset.sum_nonneg (fun j _ => mul_self_nonneg (p j))
      rw [forLoop_succ, ih (by omega)]
      have hm : fl_mul FLT_MAX (Fl.fin (p k)) (Fl.fin (p k)) = Fl.fin (p k * p k) := by
        show fl_round FLT_MAX (p k * p k) = _
        exact fl_round_fin _ _ (le_trans (neg_nonpos.mpr h0) (mul_self_nonneg _)) hsq
      rw [hm]
      show fl_round FLT_MAX (∑ j in Finset.range k, p j * p j + p k * p k) = _
      rw [← Finset.sum_range_succ]
      exact fl_round_fin _ _ (le_trans (neg_nonpos.mpr h0) hpos) hpart
  unfold calc_inner_product_fl
  rw [key d le_rfl, calc_inner_product_eq_sum]

theorem norm_loop_fl_aux (FLT_MAX MINREAL : α) (n d : Nat) (data : Int → Nat → α)
    (hfit : ∀ k : Nat, k < n → sq_norm d data k ≤ FLT_MAX) (k : Nat) (hk : k ≤ n) :
    forLoop k
      (fun i (st : List (Fl α) × Fl α) =>
        let norm_sqr :=
          st.1.set i (calc_inner_product_fl FLT_MAX d (data (i : Int)) (data (i : Int)))
        let max_norm_sqr :=
          if fl_gt (norm_sqr.getD i (Fl.fin 0)) st.2 then norm_sqr.getD i (Fl.fin 0)
          else st.2
        (norm_sqr, max_norm_sqr))
      (List.replicate n (Fl.fin 0), Fl.fin MINREAL)
    = ((List.range k).map (fun i => Fl.fin (sq_norm d data i))
         ++ List.replicate (n - k) (Fl.fin 0),
       Fl.fin (run_max MINREAL (sq_norm d data) k)) := by
  induction k with
  | zero => simp [run_max]
  | succ k ih =>
    have hlt : k < n := by omega
    have hrep : List.replicate (n - k) (Fl.fin (0 : α))
        = Fl.fin 0 :: List.replicate (n - (k + 1)) (Fl.fin 0) := by
      have : n - k = (n - (k + 1)) + 1 := by omega
      rw [this, List.replicate_succ]
    have hlen : k < ((List.range k).map (fun i => Fl.fin (sq_norm d data i))
        ++ List.replicate (n - k) (Fl.fin (0 : α))).length := by
      simp only [List.length_append, List.length_map, List.length_range,
        List.length_replicate]
      omega
    rw [forLoop_succ, ih (by omega)]
    simp only [run_max, forLoop_succ]
    have hg : ∀ v : Fl α, (((List.range k).map (fun i => Fl.fin (sq_norm d data i))
        ++ List.replicate (n - k) (Fl.fin (0 : α))).set k v).getD k (Fl.fin 0) = v := by
      intro v
      rw [List.getD_eq_getElem?_getD, List.getElem?_set_self hlen]
      rfl
    have hc : calc_inner_product_fl FLT_MAX d (data (k : Int)) (data (k : Int))
        = Fl.fin (sq_norm d data k) :=
      calc_inner_product_fl_self FLT_MAX d _ (hfit k hlt)
    rw [hg, hc, List.set_append_right _ _ (by simp), hrep]
    apply Prod.ext
    · simp [List.range_succ]
    · simp only [fl_gt]
      by_cases hgt : sq_norm d data k >
          forLoop k (fun i m => if sq_norm d data i > m then sq_norm d data i else m) MINREAL
      · simp [hgt]
      · simp [hgt]

theorem xbox_extra_fl_fits (sqrt : α → α) (FLT_MAX MINREAL : α) (n d : Nat)
    (data : Int → Nat → α) (i : Nat) (hM : MINREAL < 0) (hi : i < n)
    (hfit : ∀ k : Nat, k < n → sq_norm d data k ≤ FLT_MAX) :
    0 ≤ max_norm_sqr MINREAL n d data - sq_norm d data i ∧
    xbox_extra_fl sqrt FLT_MAX MINREAL n d data i =
      Fl.fin (sqrt (max_norm_sqr MINREAL n d data - sq_norm d data i)) := by
  have hmax := max_norm_sqr_isMax MINREAL n d data hM (by omega)
  have hge : 0 ≤ max_norm_sqr MINREAL n d data - sq_norm d data i :=
    sub_nonneg.mpr (hmax.2 i hi)
  obtain ⟨k, hk, hmk⟩ := hmax.1
  have hle : max_norm_sqr MINREAL n d data ≤ FLT_MAX := by rw [hmk]; exact hfit k hk
  have h0 : (0 : α) ≤ FLT_MAX := le_trans (sq_norm_nonneg d data k) (hfit k hk)
  refine ⟨hge, ?_⟩
  unfold xbox_extra_fl norm_loop_fl
  rw [norm_loop_fl_aux FLT_MAX MINREAL n d data hfit n le_rfl, ← max_norm_sqr_eq]
  have hget : ((List.range n).map (fun i => Fl.fin (sq_norm d data i))
      ++ List.replicate (n - n) (Fl.fin (0 : α))).getD i (Fl.fin 0)
      = Fl.fin (sq_norm d data i) := by
    rw [List.getD_eq_getElem?_getD, List.getElem?_append_left (by simpa using hi)]
    simp [hi]
  simp only [hget]
  show fl_sqrt sqrt (fl_round FLT_MAX
    (max_norm_sqr MINREAL n d data + -sq_norm d data i)) = _
  rw [← sub_eq_add_neg, fl_round_fin _ _ (le_trans (neg_nonpos.mpr h0) hge)
    (le_trans (sub_le_self _ (sq_norm_nonneg d data i)) hle)]
  simp [fl_sqrt, not_lt.mpr hge]

end Lemmas

/-! ## The claims -/

/-- C2: for a non-empty dataset (and `MINREAL` below every squared norm), every
augmented vector built by `bulkload` has, over its `D + 1` coordinates, a
squared Euclidean norm equal to the maximum squared norm of the dataset, in
exact real arithmetic. -/
theorem bulkload_augmented_sq_norm (MINREAL : ℝ) (n d : Nat) (r : ℝ)
    (data : Int → Nat → ℝ) (hM : MINREAL < 0) (i : Nat) (hi : i < n) :
    ∃ m, IsMaxSqNorm n d data m ∧
      fnorm_sqr (d + 1) ((bulkload Real.sqrt MINREAL n d r data).xbox_data_.getD i [])
        = some m := by
  refine ⟨max_norm_sqr MINREAL n d data,
    max_norm_sqr_isMax MINREAL n d data hM (by omega), ?_⟩
  have hm := sq_norm_le_max MINREAL n d data i hi
  rw [bulkload_row _ _ _ _ _ _ _ hi]
  rw [fnorm_sqr_some (d + 1) _
    (fun j => if j < d then data (i : Int) j
      else Real.sqrt (max_norm_sqr MINREAL n d data - sq_norm d data i))]
  · congr 1
    rw [calc_inner_product_eq_sum, Finset.sum_range_succ]
    have hs : ∑ j in Finset.range d,
        (if j < d then data (i : Int) j
            else Real.sqrt (max_norm_sqr MINREAL n d data - sq_norm d data i))
        * (if j < d then data (i : Int) j
            else Real.sqrt (max_norm_sqr MINREAL n d data - sq_norm d data i))
        = sq_norm d data i := by
      rw [sq_norm, calc_inner_product_eq_sum]
      apply Finset.sum_congr rfl
      intro j hj
      simp [Finset.mem_range.mp hj]
    rw [hs]
    simp only [lt_irrefl, if_false]
    rw [Real.mul_self_sqrt (sub_nonneg.mpr hm)]
    ring
  · intro j hj
    by_cases h : j < d
    · rw [getD_fill_lt _ _ _ _ _ h]; simp [h]
    · have : j = d := by omega
      subst this
      rw [getD_fill_last]; simp

/-- Witness of C2: the augmented vector of `[3,4]` in scenario A. -/
theorem bulkload_augmented_sq_norm_witness :
    (-1 : ℝ) < 0 ∧ 2 < 3 ∧ ∃ m, IsMaxSqNorm 3 2 (scenario_A : Int → Nat → ℝ) m ∧
      fnorm_sqr (2 + 1) ((bulkload Real.sqrt (-1) 3 2 2 scenario_A).xbox_data_.getD 2 [])
        = some m :=
  ⟨by norm_num, by decide,
    bulkload_augmented_sq_norm (-1) 3 2 2 scenario_A (by norm_num) 2 (by decide)⟩

/-- C3: for every position `i` of the dataset (and `MINREAL` negative), the
augmented vector `i` built by `bulkload` has exactly `D + 1` coordinates;
coordinates `0 .. D - 1` are the coordinates of the original vector,
unchanged, and coordinate `D` is the (finite) square root of `m - s`, where
`m` is the maximum squared norm of the dataset and `s` the squared norm of the
vector `i`. -/
theorem bulkload_augmented_vector {α : Type} [LinearOrderedField α] (sqrt : α → α)
    (MINREAL : α) (n d : Nat) (r : α) (data : Int → Nat → α)
    (hM : MINREAL < 0) (i : Nat) (hi : i < n) :
    ∃ m, IsMaxSqNorm n d data m ∧
      ∃ row, (bulkload sqrt MINREAL n d r data).xbox_data_[i]? = some row ∧
        row.length = d + 1 ∧
        (∀ j : Nat, j < d → row[j]? = some (some (data (i : Int) j))) ∧
        row[d]? = some (some (sqrt (m - sq_norm d data i))) := by
  refine ⟨max_norm_sqr MINREAL n d data,
    max_norm_sqr_isMax MINREAL n d data hM (by omega), _,
    bulkload_xbox_data_get sqrt MINREAL n d r data i hi, by simp, ?_, ?_⟩
  · intro j hj
    rw [List.getElem?_append_left (by simpa using hj)]
    simp [hj]
  · rw [List.getElem?_append_right (by simp), norm_sqr_getD _ _ _ _ _ hi]
    simp

/-- Witness of C3: the augmented vector of `[3,4]` in scenario A. -/
theorem bulkload_augmented_vector_witness :
    (-1 : ℝ) < 0 ∧ 2 < 3 ∧
    ∃ m, IsMaxSqNorm 3 2 (scenario_A : Int → Nat → ℝ) m ∧
      ∃ row, (bulkload Real.sqrt (-1) 3 2 2 scenario_A).xbox_data_[2]? = some row ∧
        row.length = 2 + 1 ∧
        (∀ j : Nat, j < 2 → row[j]? = some (some (scenario_A ((2 : Nat) : Int) j))) ∧
        row[2]? = some (some (Real.sqrt (m - sq_norm 2 scenario_A 2))) :=
  ⟨by norm_num, by decide,
    bulkload_augmented_vector Real.sqrt (-1) 3 2 2 scenario_A (by norm_num) 2 (by decide)⟩

/-- C4: for a non-empty dataset (and `MINREAL` negative), after `bulkload` the
global scale `M_` is the square root of the maximum squared norm of the
dataset: a value attained by some stored vector and at least the squared norm
of every stored vector. -/
theorem bulkload_M_sqrt_max {α : Type} [LinearOrderedField α] (sqrt : α → α)
    (MINREAL : α) (n d : Nat) (r : α) (data : Int → Nat → α)
    (hM : MINREAL < 0) (hn : 0 < n) :
    ∃ m, IsMaxSqNorm n d data m ∧
      (bulkload sqrt MINREAL n d r data).M_ = some (sqrt m) := by
  have hmax := max_norm_sqr_isMax MINREAL n d data hM hn
  refine ⟨max_norm_sqr MINREAL n d data, hmax, ?_⟩
  rw [bulkload_M]
  apply fsqrt_of_nonneg
  obtain ⟨⟨i, _, hi⟩, _⟩ := hmax
  rw [hi]
  exact sq_norm_nonneg d data i

/-- Witness of C4: scenario A. -/
theorem bulkload_M_sqrt_max_witness :
    (-1 : ℝ) < 0 ∧ 0 < 3 ∧ ∃ m, IsMaxSqNorm 3 2 (scenario_A : Int → Nat → ℝ) m ∧
      (bulkload Real.sqrt (-1) 3 2 2 scenario_A).M_ = some (Real.sqrt m) :=
  ⟨by norm_num, by decide,
    bulkload_M_sqrt_max Real.sqrt (-1) 3 2 2 scenario_A (by norm_num) (by decide)⟩

/-- C5: the augmented query of `kmip` has `D + 1` coordinates and its last
coordinate is exactly 0, whatever the flag and `lambda`; for a query of
non-zero norm, `lambda` is `M_ / ||query||` when the rescale flag is true and
1 when it is false, and each of the first `D` coordinates is
`lambda * query[j]`. -/
theorem xbox_query_coordinates (self : State ℝ) (b : Bool) (query : Nat → ℝ) :
    ((xbox_query Real.sqrt self b query).length = self.dim_ + 1 ∧
      (xbox_query Real.sqrt self b query)[self.dim_]? = some (some 0)) ∧
    (Real.sqrt (calc_inner_product self.dim_ query query) ≠ 0 →
      lambda Real.sqrt self b query =
        (if b then
          self.M_.map (fun m => m / Real.sqrt (calc_inner_product self.dim_ query query))
         else some 1) ∧
      ∀ j : Nat, j < self.dim_ →
        (xbox_query Real.sqrt self b query)[j]? =
          some ((lambda Real.sqrt self b query).map (fun l => l * query j))) := by
  rw [xbox_query_eq]
  refine ⟨⟨by simp, ?_⟩, ?_⟩
  · rw [List.getElem?_append_right (by simp)]
    simp
  · intro hne
    have hnn : (0 : ℝ) ≤ calc_inner_product self.dim_ query query := by
      rw [calc_inner_product_eq_sum]
      exact Finset.sum_nonneg (fun j _ => mul_self_nonneg _)
    refine ⟨?_, ?_⟩
    · unfold lambda norm_q
      rw [fsqrt_of_nonneg _ _ hnn]
      cases b with
      | false => simp
      | true =>
        cases hM : self.M_ with
        | none => simp [fdiv]
        | some m => simp [fdiv, hne]
    · intro j hj
      rw [List.getElem?_append_left (by simpa using hj)]
      simp only [List.getElem?_map, List.getElem?_range hj, Option.map_some']
      cases lambda Real.sqrt self b query <;> rfl

/-- Witness of C5: the query `[1,1]` of scenario A, with the rescale flag. -/
theorem xbox_query_coordinates_witness :
    Real.sqrt (calc_inner_product (bulkload Real.sqrt (-1) 3 2 2 scenario_A).dim_
      query_A query_A) ≠ 0 ∧
    lambda Real.sqrt (bulkload Real.sqrt (-1) 3 2 2 scenario_A) true query_A =
        (if true then
          (bulkload Real.sqrt (-1) 3 2 2 scenario_A).M_.map
            (fun m => m / Real.sqrt (calc_inner_product
              (bulkload Real.sqrt (-1) 3 2 2 scenario_A).dim_ query_A query_A))
         else some 1) ∧
      ∀ j : Nat, j < (bulkload Real.sqrt (-1) 3 2 2 scenario_A).dim_ →
        (xbox_query Real.sqrt (bulkload Real.sqrt (-1) 3 2 2 scenario_A) true query_A)[j]? =
          some ((lambda Real.sqrt (bulkload Real.sqrt (-1) 3 2 2 scenario_A) true
            query_A).map (fun l => l * query_A j)) :=
  have hne : Real.sqrt (calc_inner_product (bulkload Real.sqrt (-1) 3 2 2 scenario_A).dim_
      query_A query_A) ≠ 0 := by
    rw [bulkload_dim, ip_query_A]
    exact ne_of_gt (Real.sqrt_pos.mpr (by norm_num))
  ⟨hne,
    (xbox_query_coordinates (bulkload Real.sqrt (-1) 3 2 2 scenario_A) true query_A).2 hne⟩

/-- Counterexample to C6: scenario A with the query `[0,0]` and the rescale
flag true; the scale factor is not 1 and the augmented query is not the query
followed by 0. -/
theorem lambda_zero_norm_counterexample :
    Real.sqrt (calc_inner_product (bulkload Real.sqrt (-1) 3 2 2 scenario_A).dim_
      (of_vec [0, 0]) (of_vec [0, 0])) = 0 ∧
    lambda Real.sqrt (bulkload Real.sqrt (-1) 3 2 2 scenario_A) true (of_vec [0, 0])
      ≠ some 1 ∧
    xbox_query Real.sqrt (bulkload Real.sqrt (-1) 3 2 2 scenario_A) true (of_vec [0, 0])
      ≠ [some 0, some 0, some 0] := by
  have hq : Real.sqrt (calc_inner_product (bulkload Real.sqrt (-1) 3 2 2 scenario_A).dim_
      (of_vec [0, 0]) (of_vec [0, 0])) = 0 := by
    simp [calc_inner_product, forLoop, of_vec]
  have h := (zero_norm_query_aux (bulkload Real.sqrt (-1) 3 2 2 scenario_A)
    (of_vec [0, 0]) hq).1
  refine ⟨hq, ?_, ?_⟩
  · rw [h.1]
    exact fun e => Option.noConfusion e
  · rw [h.2]
    simp [List.range_succ]

/-- C6, as the code behaves: `kmip` has no case for a query of zero norm.  For
a query with `||query|| = 0` and the rescale flag true, `lambda = M_ / norm_q`
is a division by zero: `lambda` is not finite, and neither is any of the first
`D` coordinates `lambda * query[j]` of the augmented query, whose last
coordinate is 0.  With the flag false `lambda` is 1 and the augmented query is
the original query followed by 0. -/
theorem lambda_zero_norm (self : State ℝ) (query : Nat → ℝ)
    (hq : Real.sqrt (calc_inner_product self.dim_ query query) = 0) :
    (lambda Real.sqrt self true query = none ∧
      xbox_query Real.sqrt self true query =
        (List.range self.dim_).map (fun _ => (none : F ℝ)) ++ [some 0]) ∧
    (lambda Real.sqrt self false query = some 1 ∧
      xbox_query Real.sqrt self false query =
        (List.range self.dim_).map (fun j => (some (query j) : F ℝ)) ++ [some 0]) :=
  zero_norm_query_aux self query hq

/-- Witness of the amended C6: the query `[0,0]` on scenario A. -/
theorem lambda_zero_norm_witness :
    Real.sqrt (calc_inner_product (bulkload Real.sqrt (-1) 3 2 2 scenario_A).dim_
      (of_vec [0, 0]) (of_vec [0, 0])) = 0 ∧
    lambda Real.sqrt (bulkload Real.sqrt (-1) 3 2 2 scenario_A) true (of_vec [0, 0])
      = none := by
  have hq : Real.sqrt (calc_inner_product (bulkload Real.sqrt (-1) 3 2 2 scenario_A).dim_
      (of_vec [0, 0]) (of_vec [0, 0])) = 0 := by
    simp [calc_inner_product, forLoop, of_vec]
  exact ⟨hq, (lambda_zero_norm (bulkload Real.sqrt (-1) 3 2 2 scenario_A)
    (of_vec [0, 0]) hq).1.1⟩

/-- C7: `kmip` returns 0 and performs, in order, one `insert(score, id + 1)`
per position `i < top_k` of the candidate container, where `id` is the
candidate at position `i` and `score` is the inner product of the original
stored vector `data_[id]` with the original query.  The flag enters only
through the candidates the NN index returns: two calls whose candidate
containers agree on the positions below `top_k` give the same result. -/
theorem kmip_inserts_original_inner_products {α σ : Type} [LinearOrderedField α]
    (sqrt : α → α) (MAXREAL : α) (knn : QALSH α → Nat → α → List (F α) → MinK_List)
    (ins : σ → α → Int → σ) (self : State α) (top_k : Nat) (b : Bool)
    (query : Nat → α) (list : σ) :
    kmip sqrt MAXREAL knn ins self top_k b query list =
      (0, ((List.range top_k).map
          (fun i =>
            (calc_inner_product self.dim_
                (self.data_ ((knn self.lsh_ top_k MAXREAL
                  (xbox_query sqrt self b query)).ith_id i)) query,
              (knn self.lsh_ top_k MAXREAL (xbox_query sqrt self b query)).ith_id i + 1))).foldl
        (fun s p => ins s p.1 p.2) list) ∧
    ∀ b2 : Bool,
      (∀ i : Nat, i < top_k →
        (knn self.lsh_ top_k MAXREAL (xbox_query sqrt self b query)).ith_id i =
          (knn self.lsh_ top_k MAXREAL (xbox_query sqrt self b2 query)).ith_id i) →
      kmip sqrt MAXREAL knn ins self top_k b query list =
        kmip sqrt MAXREAL knn ins self top_k b2 query list := by
  have key : ∀ b1 : Bool, kmip sqrt MAXREAL knn ins self top_k b1 query list =
      (0, ((List.range top_k).map
          (fun i =>
            (calc_inner_product self.dim_
                (self.data_ ((knn self.lsh_ top_k MAXREAL
                  (xbox_query sqrt self b1 query)).ith_id i)) query,
              (knn self.lsh_ top_k MAXREAL (xbox_query sqrt self b1 query)).ith_id i + 1))).foldl
        (fun s p => ins s p.1 p.2) list) := by
    intro b1
    apply Prod.ext
    · rfl
    · rw [kmip_snd]
      exact forLoop_eq_foldl _ (fun (s : σ) (p : α × Int) => ins s p.1 p.2) list top_k
  refine ⟨key b, ?_⟩
  intro b2 h
  rw [key b, key b2]
  congr 2
  apply List.map_congr_left
  intro i hi
  rw [h i (List.mem_range.mp hi)]

/-- Witness of C7: on scenario A with a fixed candidate container the two
settings of the flag give the same result. -/
theorem kmip_inserts_original_inner_products_witness :
    kmip Real.sqrt 1 (const_knn (MinK_List.mk 1 (fun _ => 2))) trace_insert
        (bulkload Real.sqrt (-1) 3 2 2 scenario_A) 1 true query_A []
      = kmip Real.sqrt 1 (const_knn (MinK_List.mk 1 (fun _ => 2))) trace_insert
        (bulkload Real.sqrt (-1) 3 2 2 scenario_A) 1 false query_A [] :=
  (kmip_inserts_original_inner_products Real.sqrt 1
    (const_knn (MinK_List.mk 1 (fun _ => 2))) trace_insert
    (bulkload Real.sqrt (-1) 3 2 2 scenario_A) 1 true query_A []).2 false
    (fun _ _ => rfl)

/-- C8: with an initially empty bounded top-k sink of capacity `top_k` and
valid candidate ids at the `top_k` positions of the candidate container,
`kmip` leaves exactly `top_k` results in the sink, in descending score order;
they are the pairs `(score, id + 1)` of the candidates, and every score is the
inner product of an original stored vector with the original query. -/
theorem kmip_topk_sorted {α : Type} [LinearOrderedField α] (sqrt : α → α)
    (MAXREAL : α) (knn : QALSH α → Nat → α → List (F α) → MinK_List)
    (self : State α) (top_k : Nat) (b : Bool) (query : Nat → α)
    (hvalid : ∀ i : Nat, i < top_k →
      0 ≤ (knn self.lsh_ top_k MAXREAL (xbox_query sqrt self b query)).ith_id i ∧
      (knn self.lsh_ top_k MAXREAL (xbox_query sqrt self b query)).ith_id i
        < (self.n_pts_ : Int)) :
    (kmip sqrt MAXREAL knn MaxK_List.insert self top_k b query
        (MaxK_List.init top_k)).2.list_.length = top_k ∧
    (kmip sqrt MAXREAL knn MaxK_List.insert self top_k b query
        (MaxK_List.init top_k)).2.list_.Pairwise (fun x y => y.1 ≤ x.1) ∧
    (kmip sqrt MAXREAL knn MaxK_List.insert self top_k b query
        (MaxK_List.init top_k)).2.list_.Perm
      ((List.range top_k).map (ranked_pair self query
        (knn self.lsh_ top_k MAXREAL (xbox_query sqrt self b query)))) ∧
    ∀ e, e ∈ (kmip sqrt MAXREAL knn MaxK_List.insert self top_k b query
        (MaxK_List.init top_k)).2.list_ →
      ∃ id : Nat, id < self.n_pts_ ∧
        e = (calc_inner_product self.dim_ (self.data_ (id : Int)) query, (id : Int) + 1) := by
  rw [kmip_snd]
  obtain ⟨_, hs, hp⟩ := maxk_fill (ranked_pair self query
    (knn self.lsh_ top_k MAXREAL (xbox_query sqrt self b query))) top_k top_k le_rfl
  refine ⟨by rw [hp.length_eq]; simp, hs, hp, ?_⟩
  intro e he
  obtain ⟨i, hi, rfl⟩ := List.mem_map.mp (hp.mem_iff.mp he)
  obtain ⟨h0, hlt⟩ := hvalid i (List.mem_range.mp hi)
  refine ⟨((knn self.lsh_ top_k MAXREAL (xbox_query sqrt self b query)).ith_id i).toNat,
    ?_, ?_⟩
  · have : ((((knn self.lsh_ top_k MAXREAL (xbox_query sqrt self b query)).ith_id i).toNat
        : Nat) : Int) < (self.n_pts_ : Int) := by
      rw [Int.toNat_of_nonneg h0]; exact hlt
    exact_mod_cast this
  · rw [Int.toNat_of_nonneg h0]
    rfl

/-- Witness of C8: scenario A, `top_k = 2`, candidates 2 and 0. -/
theorem kmip_topk_sorted_witness :
    (∀ i : Nat, i < 2 →
      0 ≤ (const_knn (MinK_List.mk 2 (fun i => if i = 0 then 2 else 0))
          (bulkload Real.sqrt (-1) 3 2 2 scenario_A).lsh_ 2 (1 : ℝ)
          (xbox_query Real.sqrt (bulkload Real.sqrt (-1) 3 2 2 scenario_A) false
            query_A)).ith_id i ∧
      (const_knn (MinK_List.mk 2 (fun i => if i = 0 then 2 else 0))
          (bulkload Real.sqrt (-1) 3 2 2 scenario_A).lsh_ 2 (1 : ℝ)
          (xbox_query Real.sqrt (bulkload Real.sqrt (-1) 3 2 2 scenario_A) false
            query_A)).ith_id i
        < ((bulkload Real.sqrt (-1) 3 2 2 (scenario_A : Int → Nat → ℝ)).n_pts_ : Int)) ∧
    (kmip Real.sqrt 1 (const_knn (MinK_List.mk 2 (fun i => if i = 0 then 2 else 0)))
        MaxK_List.insert (bulkload Real.sqrt (-1) 3 2 2 scenario_A) 2 false query_A
        (MaxK_List.init 2)).2.list_.length = 2 := by
  have hv : ∀ i : Nat, i < 2 →
      0 ≤ (const_knn (MinK_List.mk 2 (fun i => if i = 0 then 2 else 0))
          (bulkload Real.sqrt (-1) 3 2 2 scenario_A).lsh_ 2 (1 : ℝ)
          (xbox_query Real.sqrt (bulkload Real.sqrt (-1) 3 2 2 scenario_A) false
            query_A)).ith_id i ∧
      (const_knn (MinK_List.mk 2 (fun i => if i = 0 then 2 else 0))
          (bulkload Real.sqrt (-1) 3 2 2 scenario_A).lsh_ 2 (1 : ℝ)
          (xbox_query Real.sqrt (bulkload Real.sqrt (-1) 3 2 2 scenario_A) false
            query_A)).ith_id i
        < ((bulkload Real.sqrt (-1) 3 2 2 (scenario_A : Int → Nat → ℝ)).n_pts_ : Int) := by
    intro i _
    simp only [const_knn, bulkload_n_pts]
    split <;> norm_num
  exact ⟨hv, (kmip_topk_sorted Real.sqrt 1 _ _ 2 false query_A hv).1⟩

/-- Counterexample to C9: on scenario A the NN index returns one candidate,
the valid id 0, and `top_k = 2`.  The loop runs twice; its second iteration
reads position 1 of the container, which holds no candidate (here `-1`), and
indexes `data_` with it.  The call does not end with `min(2, 1) = 1` entries:
it has no defined result. -/
theorem kmip_insertion_count_counterexample :
    (∀ i : Nat, i < (MinK_List.mk 1 (fun i => if i = 0 then 0 else -1)).num_ →
      0 ≤ (MinK_List.mk 1 (fun i => if i = 0 then 0 else -1)).ith_id i ∧
      (MinK_List.mk 1 (fun i => if i = 0 then 0 else -1)).ith_id i < 3) ∧
    kmip_ub Real.sqrt 1 (fixed_knn (MinK_List.mk 1 (fun i => if i = 0 then 0 else -1)))
        trace_insert (bulkload Real.sqrt (-1) 3 2 2 scenario_A) 2 false query_A []
      = none ∧
    ¬ ∃ t, kmip_ub Real.sqrt 1
        (fixed_knn (MinK_List.mk 1 (fun i => if i = 0 then 0 else -1)))
        trace_insert (bulkload Real.sqrt (-1) 3 2 2 scenario_A) 2 false query_A []
      = some (0, t) ∧ t.length = min 2 1 := by
  have h : kmip_ub Real.sqrt 1
        (fixed_knn (MinK_List.mk 1 (fun i => if i = 0 then 0 else -1)))
        trace_insert (bulkload Real.sqrt (-1) 3 2 2 scenario_A) 2 false query_A []
      = none := by
    apply kmip_ub_invalid _ _ _ _ _ _ _ _ _ 1 (by decide)
    simp [fixed_knn]
  refine ⟨?_, h, ?_⟩
  · intro i hi
    have hi0 : i = 0 := by
      have : i < 1 := hi
      omega
    subst hi0
    simp
  · rintro ⟨t, ht, _⟩
    rw [h] at ht
    exact Option.noConfusion ht

/-- C9, as the code behaves: when the NN index returns at least `top_k`
candidates and the returned candidates are valid ids, `kmip` returns 0 and
produces exactly `min(top_k, number of candidates)` entries: one insertion per
candidate at the positions below `top_k`, in order, and none beyond. -/
theorem kmip_insertion_count {α : Type} [LinearOrderedField α] (sqrt : α → α)
    (MAXREAL : α) (knn : QALSH α → Int → α → List (F α) → MinK_List)
    (self : State α) (top_k : Int) (b : Bool) (query : Nat → α)
    (hnum : top_k ≤ ((knn self.lsh_ top_k MAXREAL (xbox_query sqrt self b query)).num_ : Int))
    (hvalid : ∀ i : Nat,
      i < (knn self.lsh_ top_k MAXREAL (xbox_query sqrt self b query)).num_ →
      0 ≤ (knn self.lsh_ top_k MAXREAL (xbox_query sqrt self b query)).ith_id i ∧
      (knn self.lsh_ top_k MAXREAL (xbox_query sqrt self b query)).ith_id i
        < (self.n_pts_ : Int)) :
    ∃ t, kmip_ub sqrt MAXREAL knn trace_insert self top_k b query [] = some (0, t) ∧
      t.length =
        min top_k.toNat (knn self.lsh_ top_k MAXREAL (xbox_query sqrt self b query)).num_ ∧
      t = (List.range
            (min top_k.toNat
              (knn self.lsh_ top_k MAXREAL (xbox_query sqrt self b query)).num_)).map
          (fun i =>
            (calc_inner_product self.dim_
                (self.data_ ((knn self.lsh_ top_k MAXREAL
                  (xbox_query sqrt self b query)).ith_id i)) query,
              (knn self.lsh_ top_k MAXREAL (xbox_query sqrt self b query)).ith_id i + 1)) := by
  have hle : top_k.toNat ≤
      (knn self.lsh_ top_k MAXREAL (xbox_query sqrt self b query)).num_ := by
    omega
  have hmin : min top_k.toNat
      (knn self.lsh_ top_k MAXREAL (xbox_query sqrt self b query)).num_ = top_k.toNat :=
    Nat.min_eq_left hle
  refine ⟨_, kmip_ub_trace sqrt MAXREAL knn self top_k b query
    (fun i hi => hvalid i (by omega)), ?_, ?_⟩
  · rw [hmin]
    simp
  · rw [hmin]
    rfl

/-- Witness of C9: scenario A, three valid candidates returned, `top_k = 2`. -/
theorem kmip_insertion_count_witness :
    (2 : Int) ≤ ((fixed_knn (MinK_List.mk 3 (fun i => i))
      (bulkload Real.sqrt (-1) 3 2 2 scenario_A).lsh_ 2 (1 : ℝ)
      (xbox_query Real.sqrt (bulkload Real.sqrt (-1) 3 2 2 scenario_A) false
        query_A)).num_ : Int) ∧
    ∃ t, kmip_ub Real.sqrt 1 (fixed_knn (MinK_List.mk 3 (fun i => i))) trace_insert
        (bulkload Real.sqrt (-1) 3 2 2 scenario_A) 2 false query_A [] = some (0, t) ∧
      t.length = min (2 : Int).toNat 3 := by
  have hnum : (2 : Int) ≤ ((fixed_knn (MinK_List.mk 3 (fun i => i))
      (bulkload Real.sqrt (-1) 3 2 2 scenario_A).lsh_ 2 (1 : ℝ)
      (xbox_query Real.sqrt (bulkload Real.sqrt (-1) 3 2 2 scenario_A) false
        query_A)).num_ : Int) := by
    simp [fixed_knn]
  obtain ⟨t, ht, hlen, _⟩ := kmip_insertion_count Real.sqrt 1
    (fixed_knn (MinK_List.mk 3 (fun i => i)))
    (bulkload Real.sqrt (-1) 3 2 2 scenario_A) 2 false query_A hnum
    (fun i hi => by
      simp only [fixed_knn, bulkload_n_pts] at hi ⊢
      constructor
      · exact Int.natCast_nonneg i
      · exact_mod_cast hi)
  exact ⟨hnum, t, ht, hlen⟩

/-- Counterexample to C10: a dataset of `N = 3` vectors (scenario A) in a
memory that holds `[7,7]` at row 5; the NN index returns the candidate id 5,
outside `[0, 3)`.  `kmip` returns 0 and inserts `(14, 6)`: it has read
`data_[5]`. -/
theorem kmip_no_validation_counterexample :
    ¬ ((0 : Int) ≤ 5 ∧ (5 : Int) < ((bulkload Real.sqrt (-1) 3 2 2
        (of_rows [[1, 0], [0, 1], [3, 4], [0, 0], [0, 0], [7, 7]])).n_pts_ : Int)) ∧
    kmip Real.sqrt 1 (const_knn (MinK_List.mk 1 (fun _ => 5))) trace_insert
        (bulkload Real.sqrt (-1) 3 2 2
          (of_rows [[1, 0], [0, 1], [3, 4], [0, 0], [0, 0], [7, 7]]))
        1 false query_A []
      = (0, [((14 : ℝ), (6 : Int))]) := by
  refine ⟨by simp, ?_⟩
  apply Prod.ext
  · rfl
  · rw [kmip_snd, forLoop_trace]
    simp [List.range_succ, ranked_pair, const_knn, calc_inner_product, forLoop, of_rows,
      query_A, of_vec]
    norm_num

/-- C10, as the code behaves: `kmip` performs no validation of the candidate
ids and has no error path: line 118 indexes `data_` with the id as returned.
Whenever a call returns, the value is 0; and when the candidate ids at the
positions below `top_k` lie in `[0, N)`, the call returns 0 after performing,
for each position in order, the insertion `(inner product of data_[id] with
the query, id + 1)`. -/
theorem kmip_no_validation {α σ : Type} [LinearOrderedField α] (sqrt : α → α)
    (MAXREAL : α) (knn : QALSH α → Int → α → List (F α) → MinK_List)
    (ins : σ → α → Int → σ) (self : State α) (top_k : Int) (b : Bool)
    (query : Nat → α) (list : σ) :
    (∀ r, kmip_ub sqrt MAXREAL knn ins self top_k b query list = some r → r.1 = 0) ∧
    ((∀ i : Nat, i < top_k.toNat →
        0 ≤ (knn self.lsh_ top_k MAXREAL (xbox_query sqrt self b query)).ith_id i ∧
        (knn self.lsh_ top_k MAXREAL (xbox_query sqrt self b query)).ith_id i
          < (self.n_pts_ : Int)) →
      kmip_ub sqrt MAXREAL knn ins self top_k b query list =
        some (0, ((List.range top_k.toNat).map
          (fun i =>
            (calc_inner_product self.dim_
                (self.data_ ((knn self.lsh_ top_k MAXREAL
                  (xbox_query sqrt self b query)).ith_id i)) query,
              (knn self.lsh_ top_k MAXREAL
                (xbox_query sqrt self b query)).ith_id i + 1))).foldl
          (fun s p => ins s p.1 p.2) list)) := by
  refine ⟨fun r h => kmip_ub_fst sqrt MAXREAL knn ins self top_k b query list r h, ?_⟩
  intro hvalid
  rw [kmip_ub_valid sqrt MAXREAL knn ins self top_k b query list hvalid]
  congr 2
  exact forLoop_eq_foldl _ (fun (s : σ) (p : α × Int) => ins s p.1 p.2) list top_k.toNat

/-- Witness of C10: scenario A, `top_k = 1`, the valid candidate 2. -/
theorem kmip_no_validation_witness :
    (∀ i : Nat, i < (1 : Int).toNat →
        0 ≤ (fixed_knn (MinK_List.mk 1 (fun _ => 2))
            (bulkload Real.sqrt (-1) 3 2 2 scenario_A).lsh_ 1 (1 : ℝ)
            (xbox_query Real.sqrt (bulkload Real.sqrt (-1) 3 2 2 scenario_A) false
              query_A)).ith_id i ∧
        (fixed_knn (MinK_List.mk 1 (fun _ => 2))
            (bulkload Real.sqrt (-1) 3 2 2 scenario_A).lsh_ 1 (1 : ℝ)
            (xbox_query Real.sqrt (bulkload Real.sqrt (-1) 3 2 2 scenario_A) false
              query_A)).ith_id i
          < ((bulkload Real.sqrt (-1) 3 2 2 (scenario_A : Int → Nat → ℝ)).n_pts_ : Int)) ∧
    kmip_ub Real.sqrt 1 (fixed_knn (MinK_List.mk 1 (fun _ => 2))) trace_insert
        (bulkload Real.sqrt (-1) 3 2 2 scenario_A) 1 false query_A []
      = some (0, [((7 : ℝ), (3 : Int))]) := by
  have hv : ∀ i : Nat, i < (1 : Int).toNat →
        0 ≤ (fixed_knn (MinK_List.mk 1 (fun _ => 2))
            (bulkload Real.sqrt (-1) 3 2 2 scenario_A).lsh_ 1 (1 : ℝ)
            (xbox_query Real.sqrt (bulkload Real.sqrt (-1) 3 2 2 scenario_A) false
              query_A)).ith_id i ∧
        (fixed_knn (MinK_List.mk 1 (fun _ => 2))
            (bulkload Real.sqrt (-1) 3 2 2 scenario_A).lsh_ 1 (1 : ℝ)
            (xbox_query Real.sqrt (bulkload Real.sqrt (-1) 3 2 2 scenario_A) false
              query_A)).ith_id i
          < ((bulkload Real.sqrt (-1) 3 2 2 (scenario_A : Int → Nat → ℝ)).n_pts_ : Int) := by
    intro i _
    simp [fixed_knn]
  refine ⟨hv, ?_⟩
  rw [(kmip_no_validation Real.sqrt 1 (fixed_knn (MinK_List.mk 1 (fun _ => 2)))
    trace_insert (bulkload Real.sqrt (-1) 3 2 2 scenario_A) 1 false query_A []).2 hv]
  simp [List.range_succ, fixed_knn, trace_insert, ip_scenario_A_2]

/-- Counterexample to C11: the empty dataset (`N = 0`) and `top_k = 1`.  The
loop runs once and indexes `data_` with the id at position 0 of the candidate
container; no id lies in the empty dataset, so the call does not return an
empty result: it has no defined result. -/
theorem kmip_empty_dataset_counterexample :
    kmip_ub Real.sqrt 1 (fixed_knn (MinK_List.mk 0 (fun _ => -1))) trace_insert
        (bulkload Real.sqrt (-1) 0 2 2 (of_rows [])) 1 false query_A []
      = none ∧
    kmip_ub Real.sqrt 1 (fixed_knn (MinK_List.mk 0 (fun _ => -1))) trace_insert
        (bulkload Real.sqrt (-1) 0 2 2 (of_rows [])) 1 false query_A []
      ≠ some (0, []) := by
  have h : kmip_ub Real.sqrt 1 (fixed_knn (MinK_List.mk 0 (fun _ => -1))) trace_insert
        (bulkload Real.sqrt (-1) 0 2 2 (of_rows [])) 1 false query_A []
      = none := by
    apply kmip_ub_invalid _ _ _ _ _ _ _ _ _ 0 (by decide)
    simp [fixed_knn]
  refine ⟨h, ?_⟩
  rw [h]
  exact fun e => Option.noConfusion e

/-- C11, as the code behaves: for `N = 0` `bulkload` completes, with no
augmented vector and the NN index built with count 0 and dimension `D + 1`.
`kmip` has no case for the empty dataset: a call with `top_k = 0` returns 0
with the sink unchanged and no access to `data_`, while a call with
`top_k >= 1` runs its loop and indexes `data_`, of which no position lies in
the empty dataset, so that it has no defined result. -/
theorem kmip_empty_dataset {α σ : Type} [LinearOrderedField α] (sqrt : α → α)
    (MINREAL MAXREAL : α) (knn : QALSH α → Int → α → List (F α) → MinK_List)
    (ins : σ → α → Int → σ) (d : Nat) (r : α) (data : Int → Nat → α) (top_k : Int)
    (b : Bool) (query : Nat → α) (list : σ) :
    ((bulkload sqrt MINREAL 0 d r data).n_pts_ = 0 ∧
      (bulkload sqrt MINREAL 0 d r data).xbox_data_ = [] ∧
      (bulkload sqrt MINREAL 0 d r data).lsh_ = QALSH.mk 0 (d + 1) r []) ∧
    kmip_ub sqrt MAXREAL knn ins (bulkload sqrt MINREAL 0 d r data) 0 b query list
      = some (0, list) ∧
    (1 ≤ top_k →
      kmip_ub sqrt MAXREAL knn ins (bulkload sqrt MINREAL 0 d r data) top_k b query list
        = none) := by
  have he := bulkload_empty sqrt MINREAL d r data
  refine ⟨⟨rfl, he, by rw [bulkload_lsh, he]⟩, rfl, ?_⟩
  intro hk
  apply kmip_ub_invalid _ _ _ _ _ _ _ _ _ 0 (by omega)
  rw [bulkload_n_pts]
  intro h
  have h1 := h.1
  have h2 := h.2
  simp only [Nat.cast_zero] at h2
  exact absurd (lt_of_le_of_lt h1 h2) (lt_irrefl _)

/-- Witness of C11: the empty dataset with `top_k = 3`. -/
theorem kmip_empty_dataset_witness :
    (1 : Int) ≤ 3 ∧
    kmip_ub Real.sqrt 1 (fixed_knn (MinK_List.mk 0 (fun _ => 0))) trace_insert
        (bulkload Real.sqrt (-1) 0 2 2 (of_rows [])) 3 true query_A []
      = none :=
  ⟨by decide,
    (kmip_empty_dataset Real.sqrt (-1) 1 (fixed_knn (MinK_List.mk 0 (fun _ => 0)))
      trace_insert 2 2 (of_rows []) 3 true query_A []).2.2 (by decide)⟩

/-- Counterexample to C12: scenario A (`N = 3`) and `top_k = 0`, outside
`[1, 3]`.  `kmip` does not reject the call: it returns 0, with the sink
unchanged. -/
theorem kmip_top_k_unchecked_counterexample :
    0 < (bulkload Real.sqrt (-1) 3 2 2 (scenario_A : Int → Nat → ℝ)).n_pts_ ∧
    ¬ ((1 : Int) ≤ 0 ∧ (0 : Int) ≤
      ((bulkload Real.sqrt (-1) 3 2 2 (scenario_A : Int → Nat → ℝ)).n_pts_ : Int)) ∧
    kmip_ub Real.sqrt 1 (fixed_knn (MinK_List.mk 0 (fun _ => -1))) trace_insert
        (bulkload Real.sqrt (-1) 3 2 2 scenario_A) 0 false query_A []
      = some (0, []) := by
  refine ⟨by simp, by simp, rfl⟩

/-- C12, as the code behaves: `kmip` does not check `top_k` and has no
`InvalidInput` error.  A call with `top_k = 0` asks the NN index for 0
candidates, runs no iteration of the re-ranking loop and returns 0 with the
sink unchanged; and for every `top_k`, a call that returns, returns 0. -/
theorem kmip_top_k_unchecked {α σ : Type} [LinearOrderedField α] (sqrt : α → α)
    (MAXREAL : α) (knn : QALSH α → Int → α → List (F α) → MinK_List)
    (ins : σ → α → Int → σ) (self : State α) (b : Bool)
    (query : Nat → α) (list : σ) :
    kmip_ub sqrt MAXREAL knn ins self 0 b query list = some (0, list) ∧
    ∀ (top_k : Int) (r : Int × σ),
      kmip_ub sqrt MAXREAL knn ins self top_k b query list = some r → r.1 = 0 :=
  ⟨rfl, fun top_k r h => kmip_ub_fst sqrt MAXREAL knn ins self top_k b query list r h⟩

/-- Witness of C12: scenario A with `top_k = 0`. -/
theorem kmip_top_k_unchecked_witness :
    kmip_ub Real.sqrt 1 (fixed_knn (MinK_List.mk 0 (fun _ => -1))) trace_insert
        (bulkload Real.sqrt (-1) 3 2 2 scenario_A) 0 true query_A []
      = some (0, []) ∧
    ((0 : Int), ([] : List (ℝ × Int))).1 = 0 :=
  ⟨(kmip_top_k_unchecked Real.sqrt 1 (fixed_knn (MinK_List.mk 0 (fun _ => -1)))
      trace_insert (bulkload Real.sqrt (-1) 3 2 2 scenario_A) true query_A []).1,
    (kmip_top_k_unchecked Real.sqrt 1 (fixed_knn (MinK_List.mk 0 (fun _ => -1)))
      trace_insert (bulkload Real.sqrt (-1) 3 2 2 scenario_A) true query_A []).2 0
      (0, []) rfl⟩

/-- C13: for a non-empty dataset all of whose coordinates are 0 (and `MINREAL`
negative), `bulkload` yields `M_ = 0` and the extra coordinate 0 for every
augmented vector, and `kmip`, for any query and flag, with valid candidate ids
at the `top_k` positions, inserts the score 0 for every result. -/
theorem all_zero_dataset (MINREAL MAXREAL : ℝ)
    (knn : QALSH ℝ → Nat → ℝ → List (F ℝ) → MinK_List)
    (n d : Nat) (r : ℝ) (data : Int → Nat → ℝ) (top_k : Nat) (b : Bool)
    (query : Nat → ℝ)
    (hM : MINREAL < 0) (hn : 0 < n)
    (hz : ∀ i : Nat, i < n → ∀ j : Nat, j < d → data (i : Int) j = 0)
    (hvalid : ∀ i : Nat, i < top_k →
      0 ≤ (knn (bulkload Real.sqrt MINREAL n d r data).lsh_ top_k MAXREAL
          (xbox_query Real.sqrt (bulkload Real.sqrt MINREAL n d r data) b query)).ith_id i ∧
      (knn (bulkload Real.sqrt MINREAL n d r data).lsh_ top_k MAXREAL
          (xbox_query Real.sqrt (bulkload Real.sqrt MINREAL n d r data) b query)).ith_id i
        < (n : Int)) :
    (bulkload Real.sqrt MINREAL n d r data).M_ = some 0 ∧
    (∀ i : Nat, i < n →
      ∃ row, (bulkload Real.sqrt MINREAL n d r data).xbox_data_[i]? = some row ∧
        row[d]? = some (some 0)) ∧
    (kmip Real.sqrt MAXREAL knn trace_insert (bulkload Real.sqrt MINREAL n d r data)
        top_k b query []).2 =
      (List.range top_k).map (fun i =>
        ((0 : ℝ),
          (knn (bulkload Real.sqrt MINREAL n d r data).lsh_ top_k MAXREAL
            (xbox_query Real.sqrt (bulkload Real.sqrt MINREAL n d r data) b
              query)).ith_id i + 1)) := by
  have hmax := max_norm_sqr_all_zero MINREAL n d data hM hn hz
  refine ⟨?_, ?_, ?_⟩
  · rw [bulkload_M, hmax, fsqrt_of_nonneg _ _ le_rfl, Real.sqrt_zero]
  · intro i hi
    refine ⟨_, bulkload_xbox_data_get Real.sqrt MINREAL n d r data i hi, ?_⟩
    rw [List.getElem?_append_right (by simp)]
    have hs : sq_norm d data i = 0 := calc_inner_product_zero_left d _ _ (hz i hi)
    rw [hmax, norm_sqr_getD _ _ _ _ _ hi, hs]
    simp
  · rw [kmip_trace]
    apply List.map_congr_left
    intro i hi
    obtain ⟨h0, hlt⟩ := hvalid i (List.mem_range.mp hi)
    simp only [ranked_pair, bulkload_dim, bulkload_data]
    generalize (knn (bulkload Real.sqrt MINREAL n d r data).lsh_ top_k MAXREAL
      (xbox_query Real.sqrt (bulkload Real.sqrt MINREAL n d r data) b query)).ith_id i
      = c at h0 hlt ⊢
    have hcn : ((c.toNat : Nat) : Int) = c := Int.toNat_of_nonneg h0
    have hlt2 : c.toNat < n := by
      have : ((c.toNat : Nat) : Int) < (n : Int) := by rw [hcn]; exact hlt
      exact_mod_cast this
    have hrow : ∀ j : Nat, j < d → data c j = 0 := by
      intro j hj
      have h := hz c.toNat hlt2 j hj
      rwa [hcn] at h
    rw [calc_inner_product_zero_left d _ _ hrow]

/-- Witness of C13: scenario B of the spec, three zero vectors of dimension 2,
the query `[1,1]` and the candidates 0, 1, 2. -/
theorem all_zero_dataset_witness :
    (-1 : ℝ) < 0 ∧ 0 < 3 ∧
    (∀ i : Nat, i < 3 → ∀ j : Nat, j < 2 → (scenario_B (i : Int) j : ℝ) = 0) ∧
    (bulkload Real.sqrt (-1) 3 2 2 (scenario_B : Int → Nat → ℝ)).M_ = some 0 ∧
    (∀ i : Nat, i < 3 →
      ∃ row, (bulkload Real.sqrt (-1) 3 2 2 (scenario_B : Int → Nat → ℝ)).xbox_data_[i]?
          = some row ∧
        row[2]? = some (some 0)) ∧
    (kmip Real.sqrt 1 (const_knn (MinK_List.mk 3 (fun i => i))) trace_insert
        (bulkload Real.sqrt (-1) 3 2 2 scenario_B) 3 true query_A []).2 =
      (List.range 3).map (fun i =>
        ((0 : ℝ),
          (const_knn (MinK_List.mk 3 (fun i => i))
            (bulkload Real.sqrt (-1) 3 2 2 (scenario_B : Int → Nat → ℝ)).lsh_ 3 (1 : ℝ)
            (xbox_query Real.sqrt (bulkload Real.sqrt (-1) 3 2 2 scenario_B) true
              query_A)).ith_id i + 1)) :=
  ⟨by norm_num, by decide, scenario_B_zero,
    all_zero_dataset (-1) 1 (const_knn (MinK_List.mk 3 (fun i => i))) 3 2 2 scenario_B 3
      true query_A (by norm_num) (by decide) scenario_B_zero
      (fun i hi => by
        simp only [const_knn]
        constructor
        · exact Int.natCast_nonneg i
        · exact_mod_cast hi)⟩

/-- Counterexample to C14: one vector `[2^70, 0]` of dimension 2, with
`FLT_MAX = 3.402823466e38` and `MINREAL = -FLT_MAX`.  The squared norm `2^140`
overflows to `+inf`, `max_norm_sqr` is `+inf`, and line 69 takes the square
root of `inf - inf`: the extra coordinate is NaN, not the square root of a
non-negative number. -/
theorem xbox_extra_no_clamp_counterexample :
    xbox_extra_fl Real.sqrt 340282346600000000000000000000000000000
        (-340282346600000000000000000000000000000) 1 2
        (of_rows [[1180591620717411303424, 0]]) 0
      = Fl.nan := by
  have hc : calc_inner_product_fl (340282346600000000000000000000000000000 : ℝ) 2
      (of_rows [[1180591620717411303424, 0]] ((0 : Nat) : Int))
      (of_rows [[1180591620717411303424, 0]] ((0 : Nat) : Int)) = Fl.pinf := by
    simp only [calc_inner_product_fl, forLoop, of_rows]
    norm_num [fl_mul, fl_add, fl_round]
  unfold xbox_extra_fl norm_loop_fl
  simp only [forLoop, hc]
  simp [fl_gt, fl_sub, fl_neg, fl_add, fl_sqrt]

/-- C14, as the code behaves: `bulkload` applies no clamp; line 69 takes the
square root of `max_norm_sqr - norm_sqr[i]` as computed.  When every squared
norm of the dataset is within the float range (and `MINREAL` is negative), the
argument is `m - s >= 0` for every position `i`, with `m` the maximum squared
norm of the dataset and `s` the squared norm of the vector `i`, and the extra
coordinate is the finite square root of it, not a NaN. -/
theorem xbox_extra_no_clamp {α : Type} [LinearOrderedField α] (sqrt : α → α)
    (FLT_MAX MINREAL : α) (n d : Nat) (r : α) (data : Int → Nat → α) (i : Nat)
    (hM : MINREAL < 0) (hi : i < n)
    (hfit : ∀ k : Nat, k < n → sq_norm d data k ≤ FLT_MAX) :
    ∃ m, IsMaxSqNorm n d data m ∧ 0 ≤ m - sq_norm d data i ∧
      xbox_extra_fl sqrt FLT_MAX MINREAL n d data i = Fl.fin (sqrt (m - sq_norm d data i)) ∧
      ∃ row, (bulkload sqrt MINREAL n d r data).xbox_data_[i]? = some row ∧
        row[d]? = some (some (sqrt (m - sq_norm d data i))) := by
  obtain ⟨h0, hx⟩ := xbox_extra_fl_fits sqrt FLT_MAX MINREAL n d data i hM hi hfit
  refine ⟨max_norm_sqr MINREAL n d data,
    max_norm_sqr_isMax MINREAL n d data hM (by omega), h0, hx, _,
    bulkload_xbox_data_get sqrt MINREAL n d r data i hi, ?_⟩
  rw [List.getElem?_append_right (by simp), norm_sqr_getD _ _ _ _ _ hi]
  simp

/-- Witness of C14: the vector `[3,4]` of scenario A, which attains the
maximum norm. -/
theorem xbox_extra_no_clamp_witness :
    (-340282346600000000000000000000000000000 : ℝ) < 0 ∧ 2 < 3 ∧
    (∀ k : Nat, k < 3 →
      sq_norm 2 (scenario_A : Int → Nat → ℝ) k ≤ 340282346600000000000000000000000000000) ∧
    ∃ m, IsMaxSqNorm 3 2 (scenario_A : Int → Nat → ℝ) m ∧ 0 ≤ m - sq_norm 2 scenario_A 2 ∧
      xbox_extra_fl Real.sqrt 340282346600000000000000000000000000000
          (-340282346600000000000000000000000000000) 3 2 scenario_A 2
        = Fl.fin (Real.sqrt (m - sq_norm 2 scenario_A 2)) := by
  have hfit : ∀ k : Nat, k < 3 →
      sq_norm 2 (scenario_A : Int → Nat → ℝ) k ≤ 340282346600000000000000000000000000000 := by
    intro k hk
    interval_cases k
    all_goals simp [sq_norm, calc_inner_product, forLoop, scenario_A, of_rows]
    all_goals norm_num
  obtain ⟨m, hm, h0, hx, _⟩ := xbox_extra_no_clamp Real.sqrt
    340282346600000000000000000000000000000 (-340282346600000000000000000000000000000)
    3 2 2 scenario_A 2 (by norm_num) (by decide) hfit
  exact ⟨by norm_num, by decide, hfit, m, hm, h0, hx⟩

/-- C15: query determinism.  Two `kmip` calls on the same object with the same
`top_k`, flag, query and initial sink, whose NN index calls return the same
candidate id at every position below `top_k`, return the same value and leave
the same sink. -/
theorem kmip_deterministic {α σ : Type} [LinearOrderedField α] (sqrt : α → α)
    (MAXREAL : α) (knn1 knn2 : QALSH α → Nat → α → List (F α) → MinK_List)
    (ins : σ → α → Int → σ) (self : State α) (top_k : Nat) (b : Bool)
    (query : Nat → α) (list : σ)
    (hsame : ∀ i : Nat, i < top_k →
      (knn1 self.lsh_ top_k MAXREAL (xbox_query sqrt self b query)).ith_id i =
        (knn2 self.lsh_ top_k MAXREAL (xbox_query sqrt self b query)).ith_id i) :
    kmip sqrt MAXREAL knn1 ins self top_k b query list =
      kmip sqrt MAXREAL knn2 ins self top_k b query list := by
  apply Prod.ext
  · rfl
  · rw [kmip_snd, kmip_snd]
    apply forLoop_congr
    intro i hi
    funext s
    simp only [ranked_pair, hsame i hi]

/-- Witness of C15: scenario A, two NN index calls that both return the
candidate 2 at position 0 and differ elsewhere. -/
theorem kmip_deterministic_witness :
    kmip Real.sqrt 1 (const_knn (MinK_List.mk 1 (fun _ => 2))) trace_insert
        (bulkload Real.sqrt (-1) 3 2 2 scenario_A) 1 true query_A []
      = kmip Real.sqrt 1 (const_knn (MinK_List.mk 3 (fun i => if i = 0 then 2 else 0)))
        trace_insert (bulkload Real.sqrt (-1) 3 2 2 scenario_A) 1 true query_A [] :=
  kmip_deterministic Real.sqrt 1 (const_knn (MinK_List.mk 1 (fun _ => 2)))
    (const_knn (MinK_List.mk 3 (fun i => if i = 0 then 2 else 0))) trace_insert
    (bulkload Real.sqrt (-1) 3 2 2 scenario_A) 1 true query_A []
    (fun i hi => by
      have h : i = 0 := by omega
      subst h
      rfl)

/-- C16: `kmip` changes no member of the object: after the call `n_pts_`,
`dim_`, `nn_ratio_`, `M_`, the original dataset `data_`, the augmented vectors
`xbox_data_` and the NN index are what they were before it; the returned value
and the sink are those of `kmip`. -/
theorem kmip_frame {α σ : Type} [LinearOrderedField α] (sqrt : α → α)
    (MAXREAL : α) (knn : QALSH α → Nat → α → List (F α) → MinK_List)
    (ins : σ → α → Int → σ) (self : State α) (top_k : Nat) (b : Bool)
    (query : Nat → α) (list : σ) :
    ((kmip_st sqrt MAXREAL knn ins self top_k b query list).2.2.n_pts_ = self.n_pts_ ∧
      (kmip_st sqrt MAXREAL knn ins self top_k b query list).2.2.dim_ = self.dim_ ∧
      (kmip_st sqrt MAXREAL knn ins self top_k b query list).2.2.nn_ratio_
        = self.nn_ratio_ ∧
      (kmip_st sqrt MAXREAL knn ins self top_k b query list).2.2.M_ = self.M_ ∧
      (kmip_st sqrt MAXREAL knn ins self top_k b query list).2.2.data_ = self.data_ ∧
      (kmip_st sqrt MAXREAL knn ins self top_k b query list).2.2.xbox_data_
        = self.xbox_data_ ∧
      (kmip_st sqrt MAXREAL knn ins self top_k b query list).2.2.lsh_ = self.lsh_) ∧
    ((kmip_st sqrt MAXREAL knn ins self top_k b query list).1,
        (kmip_st sqrt MAXREAL knn ins self top_k b query list).2.1)
      = kmip sqrt MAXREAL knn ins self top_k b query list :=
  ⟨⟨rfl, rfl, rfl, rfl, rfl, rfl, rfl⟩, rfl⟩

/-- C17: `bulkload` constructs the NN index over the augmented dataset: with
count `N`, dimension `D + 1`, the approximation ratio of the constructor, and
the `N` augmented vectors `xbox_data_`, each of `D + 1` coordinates (the
original ones followed by the extra coordinate). -/
theorem bulkload_index_over_augmented {α : Type} [LinearOrderedField α]
    (sqrt : α → α) (MINREAL : α) (n d : Nat) (r : α) (data : Int → Nat → α) :
    (bulkload sqrt MINREAL n d r data).lsh_.n_pts_ = n ∧
    (bulkload sqrt MINREAL n d r data).lsh_.dim_ = d + 1 ∧
    (bulkload sqrt MINREAL n d r data).lsh_.appr_ratio_ = r ∧
    (bulkload sqrt MINREAL n d r data).lsh_.data_
      = (bulkload sqrt MINREAL n d r data).xbox_data_ ∧
    (bulkload sqrt MINREAL n d r data).lsh_.data_ =
      (List.range n).map (fun i : Nat =>
        (List.range d).map (fun j => (some (data (i : Int) j) : F α))
          ++ [some (sqrt (max_norm_sqr MINREAL n d data - sq_norm d data i))]) ∧
    (bulkload sqrt MINREAL n d r data).lsh_.data_.length = n ∧
    ∀ row, row ∈ (bulkload sqrt MINREAL n d r data).lsh_.data_ → row.length = d + 1 := by
  have hdata : (bulkload sqrt MINREAL n d r data).xbox_data_ =
      (List.range n).map (fun i : Nat =>
        (List.range d).map (fun j => (some (data (i : Int) j) : F α))
          ++ [some (sqrt (max_norm_sqr MINREAL n d data - sq_norm d data i))]) := by
    rw [bulkload_xbox_data]
    apply List.map_congr_left
    intro i hi
    have hi2 := List.mem_range.mp hi
    rw [xbox_row_eq, norm_sqr_getD _ _ _ _ _ hi2,
      fsqrt_of_nonneg _ _ (sub_nonneg.mpr (sq_norm_le_max MINREAL n d data i hi2))]
  rw [bulkload_lsh]
  refine ⟨rfl, rfl, rfl, rfl, hdata, ?_, ?_⟩
  · simp only [hdata]
    simp
  · intro row hrow
    simp only [hdata] at hrow
    obtain ⟨i, _, rfl⟩ := List.mem_map.mp hrow
    simp

end XBox
